import Mathlib

/-
Shallow embedding of the gut-matrix collaborative merge engine.

Conventions of the embedding:
* JS numbers are modelled as exact rationals (`ℚ`); integer-valued fields
  (`version`, counters, timestamps in ms) as `Int`/`Nat`.
* JS objects used as maps (`Record<string, UserScore>`, the rate-limit `Map`)
  are modelled as insertion-ordered association lists, mirroring object
  spread / `Map.set` semantics.
* `Date.now()` is an explicit `now : Nat` parameter, `new Date().toISOString()`
  an explicit `nowISO : String` parameter, `crypto.randomUUID()` an explicit
  generator `genId : Nat → String`, and `JSON.stringify(...).length` an
  explicit measure `byteLen : GutList → Nat`.
* The opportunistic `cleanupExpired` sweep in rateLimit.ts (triggered by
  `Math.random() < 0.01`) is not modelled: it only deletes entries that
  `checkRateLimit` already treats as absent, so it is observationally inert.
-/

namespace GM

/-! ## Data model (types.ts) -/

structure UserScore where
  g : ℚ
  u : ℚ
  t : ℚ
  score : ℚ
deriving Repr, DecidableEq, Inhabited

structure AverageScore where
  g : ℚ
  u : ℚ
  t : ℚ
  score : ℚ
  count : ℕ
deriving Repr, DecidableEq, Inhabited

/-- `Record<string, UserScore>` as an insertion-ordered association list. -/
abbrev ScoresMap := List (String × UserScore)

structure GutItem where
  id : String
  label : String
  scores : ScoresMap
  avgScore : Option AverageScore
  notes : Option String
deriving Repr, DecidableEq, Inhabited

structure Scale where
  min : ℚ
  max : ℚ
deriving Repr, DecidableEq, Inhabited

structure GutList where
  title : String
  items : List GutItem
  scale : Scale
  updatedAt : String
  version : Int
deriving Repr, DecidableEq, Inhabited

structure PartialScale where
  min : Option ℚ
  max : Option ℚ
deriving Repr, DecidableEq, Inhabited

/-- `Partial<UserScore>` as received by `normalizeUserScore`. -/
structure PartialUserScore where
  g : Option ℚ
  u : Option ℚ
  t : Option ℚ
  score : Option ℚ
deriving Repr, DecidableEq, Inhabited

/-- An element of `UpdateListRequest.items` at the JSON boundary:
`Partial<GutItem> | UserItemUpdate` collapsed into one record of
optional fields (absent JSON key = `none`). -/
structure IncomingItem where
  id : Option String
  label : Option String
  notes : Option String
  scores : Option ScoresMap
  avgScore : Option AverageScore
  g : Option ℚ
  u : Option ℚ
  t : Option ℚ
deriving Repr, DecidableEq, Inhabited

structure UpdateListRequest where
  title : Option String
  items : Option (List IncomingItem)
  scale : Option PartialScale
  version : Option Int
  userId : Option String
deriving Repr, DecidableEq, Inhabited

structure CreateListRequest where
  title : Option String
  scale : Option PartialScale
deriving Repr, DecidableEq, Inhabited

/-- The environment configuration fields the modelled handlers read. -/
structure EnvCfg where
  maxItems : Nat
  envMin : ℚ
  envMax : ℚ
  enableRateLimiting : Bool
  maxSavesPerUserPerMinute : Nat
  maxSavesPerUserPerHour : Nat
  maxSavesPerListPerMinute : Nat
  maxSizeKB : Nat
deriving Repr, DecidableEq, Inhabited

/-! ## Scoring model (utils.ts) -/

/-- `calculateScore(g, u, t)`. -/
def calculateScore (g u t : ℚ) : ℚ := g * u * t

/-- `clamp(value, min, max) = Math.max(min, Math.min(value, max))`. -/
def clamp (value lo hi : ℚ) : ℚ := max lo (min value hi)

/-- JS `Number(x) || fallback` on an optional number: an absent field gives
`NaN` (falsy) and `0` is falsy, both yielding the fallback. -/
def numOr (v : Option ℚ) (fallback : ℚ) : ℚ :=
  match v with
  | none => fallback
  | some x => if x = 0 then fallback else x

/-- JS `s || fallback` on an optional string (absent and `""` are falsy). -/
def jsOrStr (v : Option String) (fallback : String) : String :=
  match v with
  | none => fallback
  | some s => if s = "" then fallback else s

/-- `normalizeScale(scale, envMin, envMax)` (utils.ts). -/
def normalizeScale (scale : Option PartialScale) (envMin envMax : ℚ) : Scale :=
  let mn : ℚ := match scale with
    | some ps => match ps.min with | some v => v | none => 1
    | none => 1
  let mx : ℚ := match scale with
    | some ps => match ps.max with | some v => v | none => 5
    | none => 5
  let normalizedMin := clamp mn 1 envMin
  let normalizedMax := clamp mx 2 envMax
  if normalizedMax ≤ normalizedMin then { min := 1, max := 5 }
  else { min := normalizedMin, max := normalizedMax }

/-- JS `String.prototype.trim`: strip leading and trailing whitespace. -/
def jsTrim (s : String) : String :=
  ((s.toList.dropWhile Char.isWhitespace).reverse.dropWhile
    Char.isWhitespace).reverse.asString

/-- `String(item.label || '').slice(0, 200).trim() || 'Untitled Item'`. -/
def normLabel (l : Option String) : String :=
  let s := jsOrStr l ""
  let s2 := jsTrim ((s.toList.take 200).asString)
  if s2 = "" then "Untitled Item" else s2

/-- `item.notes ? String(item.notes).slice(0, 1024).trim() : undefined`. -/
def normNotes (n : Option String) : Option String :=
  match n with
  | none => none
  | some v => if v = "" then none else some (jsTrim ((v.toList.take 1024).asString))

/-- `normalizeItem(item, scale, maxItems)` (utils.ts).  `fresh` stands for the
`crypto.randomUUID()` drawn when the id is absent or empty.  The `scale` and
`maxItems` parameters are unused, exactly as in the source. -/
def normalizeItem (fresh : String) (item : IncomingItem) (_scale : Scale)
    (_maxItems : Nat) : GutItem :=
  { id := match item.id with
      | none => fresh
      | some s => if s = "" then fresh else s
  , label := normLabel item.label
  , scores := item.scores.getD []
  , avgScore := item.avgScore
  , notes := normNotes item.notes }

/-- View a stored `GutItem` as the argument `normalizeItem` receives when the
handler re-normalizes existing items. -/
def toPartial (e : GutItem) : IncomingItem :=
  { id := some e.id, label := some e.label, notes := e.notes
  , scores := some e.scores, avgScore := e.avgScore
  , g := none, u := none, t := none }

/-- `normalizeUserScore(score, scale)` (utils.ts). -/
def normalizeUserScore (score : PartialUserScore) (scale : Scale) : UserScore :=
  let g := clamp (numOr score.g scale.min) scale.min scale.max
  let u := clamp (numOr score.u scale.min) scale.min scale.max
  let t := clamp (numOr score.t scale.min) scale.min scale.max
  { g := g, u := u, t := t, score := calculateScore g u t }

/-- View a full `UserScore` as a `Partial<UserScore>` (every field present). -/
def toPartialUS (us : UserScore) : PartialUserScore :=
  { g := some us.g, u := some us.u, t := some us.t, score := some us.score }

/-- JS `Math.round`: half-integers round toward `+∞`. -/
def jsRound (x : ℚ) : ℚ := (⌊x + 1/2⌋ : ℚ)

/-- `Math.round(x * 10) / 10` — rounding to one decimal as utils.ts does. -/
def jsRound1 (x : ℚ) : ℚ := jsRound (x * 10) / 10

/-- Accumulator object of the `reduce` in `calculateAverageScore`. -/
structure SumAcc where
  g : ℚ
  u : ℚ
  t : ℚ
  score : ℚ
deriving Repr, DecidableEq, Inhabited

/-- `calculateAverageScore(scores)` (utils.ts). -/
def calculateAverageScore (scores : ScoresMap) : Option AverageScore :=
  let userScores := scores.map (·.2)
  if userScores.length = 0 then none
  else
    let sum := userScores.foldl
      (fun acc s => ⟨acc.g + s.g, acc.u + s.u, acc.t + s.t, acc.score + s.score⟩)
      (⟨0, 0, 0, 0⟩ : SumAcc)
    let count := userScores.length
    some { g := jsRound1 (sum.g / count)
         , u := jsRound1 (sum.u / count)
         , t := jsRound1 (sum.t / count)
         , score := jsRound1 (sum.score / count)
         , count := count }

/-- Key lookup in a string-keyed association list (JS object / `Map` read):
the value at the first matching key. -/
def alGet (m : List (String × A)) (k : String) : Option A :=
  match m with
  | [] => none
  | p :: ps => if p.1 = k then some p.2 else alGet ps k

/-- Key update in a string-keyed association list: an existing key keeps its
position and is overwritten in place, a new key is appended — the semantics of
both object spread `{...m, [k]: v}` and `Map.set` (JS object keys are unique,
so first-occurrence replacement is exact). -/
def alSet (m : List (String × A)) (k : String) (v : A) : List (String × A) :=
  match m with
  | [] => [(k, v)]
  | p :: ps => if p.1 = k then (k, v) :: ps else p :: alSet ps k v

/-- Object lookup `m[k]`. -/
def objGet (m : ScoresMap) (k : String) : Option UserScore := alGet m k

/-- Object spread `{...m, [k]: v}`. -/
def objSet (m : ScoresMap) (k : String) (v : UserScore) : ScoresMap := alSet m k v

/-- `mergeUserScore(item, userId, userScore, scale)` (utils.ts). -/
def mergeUserScore (item : GutItem) (userId : String) (userScore : UserScore)
    (scale : Scale) : GutItem :=
  let normalizedScore := normalizeUserScore (toPartialUS userScore) scale
  let updatedScores := objSet item.scores userId normalizedScore
  { item with
    scores := updatedScores,
    avgScore := calculateAverageScore updatedScores }

def isHexDigit (c : Char) : Bool :=
  c.isDigit || (decide ('a' ≤ c) && decide (c ≤ 'f'))
    || (decide ('A' ≤ c) && decide (c ≤ 'F'))

/-- `validateUserId` (utils.ts): the UUID shape
`/^[a-f0-9]{8}-[a-f0-9]{4}-[a-f0-9]{4}-[a-f0-9]{4}-[a-f0-9]{12}$/i`. -/
def validateUserId (s : String) : Bool :=
  let cs := s.toList
  cs.length == 36 &&
    ((List.range 36).all fun i =>
      if i = 8 || i = 13 || i = 18 || i = 23 then cs.getD i ' ' == '-'
      else isHexDigit (cs.getD i ' '))

/-- `sanitizeTitle` on an actual string: `title.trim().slice(0, 200)`. -/
def sanitizeTitle (title : String) : String :=
  ((jsTrim title).toList.take 200).asString

/-- `sanitizeTitle` at the JSON boundary: a non-string (absent) title maps
to `""`. -/
def sanitizeTitleOpt (title : Option String) : String :=
  match title with
  | none => ""
  | some s => sanitizeTitle s

/-- `validateList(data, maxItems)` (utils.ts). -/
def validateList (d : UpdateListRequest) (maxItems : Nat) : Bool :=
  match d.items with
  | some l =>
    if maxItems < l.length then false
    else match d.scale with
      | some ps =>
        match ps.min, ps.max with
        | some mn, some mx => if mx ≤ mn then false else true
        | _, _ => true
      | none => true
  | none =>
    match d.scale with
    | some ps =>
      match ps.min, ps.max with
      | some mn, some mx => if mx ≤ mn then false else true
      | _, _ => true
    | none => true

/-! ## Rate governor (rateLimit.ts) -/

structure RLEntry where
  count : Nat
  resetAt : Nat
deriving Repr, DecidableEq, Inhabited

/-- The module-level `rateLimitStore : Map<string, {count, resetAt}>`. -/
abbrev RLStore := List (String × RLEntry)

def rlGet (s : RLStore) (k : String) : Option RLEntry := alGet s k

/-- `Map.set`: overwrite in place or append. -/
def rlSet (s : RLStore) (k : String) (e : RLEntry) : RLStore := alSet s k e

structure RLResult where
  allowed : Bool
  retryAfter : Option Nat
  current : Nat
deriving Repr, DecidableEq, Inhabited

/-- `checkRateLimit(key, limit, windowMs)` (rateLimit.ts), with the mutable
store threaded explicitly and `Date.now()` as `now`. -/
def checkRateLimit (s : RLStore) (key : String) (limit windowMs now : Nat) :
    RLResult × RLStore :=
  match rlGet s key with
  | none =>
    (⟨true, none, 1⟩, rlSet s key ⟨1, now + windowMs⟩)
  | some entry =>
    if entry.resetAt < now then
      (⟨true, none, 1⟩, rlSet s key ⟨1, now + windowMs⟩)
    else if limit ≤ entry.count then
      (⟨false, some ((entry.resetAt - now + 999) / 1000), entry.count⟩, s)
    else
      (⟨true, none, entry.count + 1⟩, rlSet s key ⟨entry.count + 1, entry.resetAt⟩)

structure RLCheckOut where
  allowed : Bool
  retryAfter : Option Nat
deriving Repr, DecidableEq, Inhabited

def userMinKey (userId : String) : String := "user:" ++ userId ++ ":save:minute"
def userHourKey (userId : String) : String := "user:" ++ userId ++ ":save:hour"
def listMinKey (slug : String) : String := "list:" ++ slug ++ ":save:minute"

/-- `checkUserRateLimits(userId, 'save', env)` (rateLimit.ts). -/
def checkUserRateLimitsSave (userId : String) (env : EnvCfg) (now : Nat)
    (s : RLStore) : RLCheckOut × RLStore :=
  if env.enableRateLimiting = false then (⟨true, none⟩, s)
  else
    let r1 := checkRateLimit s (userMinKey userId) env.maxSavesPerUserPerMinute 60000 now
    if r1.1.allowed = false then (⟨false, r1.1.retryAfter⟩, r1.2)
    else
      let r2 := checkRateLimit r1.2 (userHourKey userId) env.maxSavesPerUserPerHour 3600000 now
      if r2.1.allowed = false then (⟨false, r2.1.retryAfter⟩, r2.2)
      else (⟨true, none⟩, r2.2)

/-- `checkListRateLimits(slug, env)` (rateLimit.ts). -/
def checkListRateLimits (slug : String) (env : EnvCfg) (now : Nat)
    (s : RLStore) : RLCheckOut × RLStore :=
  if env.enableRateLimiting = false then (⟨true, none⟩, s)
  else
    let r := checkRateLimit s (listMinKey slug) env.maxSavesPerListPerMinute 60000 now
    if r.1.allowed = false then (⟨false, r.1.retryAfter⟩, r.2)
    else (⟨true, none⟩, r.2)

/-! ## PUT /api/list/:slug (functions/api/list/[slug].ts) -/

/-- The userId-format gate at the top of `onRequestPut`:
`incoming.userId !== undefined && !validateUserId(incoming.userId)` fails. -/
def userGateOk (incoming : UpdateListRequest) : Bool :=
  match incoming.userId with
  | some uid => validateUserId uid
  | none => true

/-- JS truthiness of `incoming.userId` (`if (incoming.userId)`). -/
def uidTruthy (incoming : UpdateListRequest) : Option String :=
  match incoming.userId with
  | some u => if u = "" then none else some u
  | none => none

/-- The two rate-limit blocks of `onRequestPut` in order: user limits (when a
truthy userId is present), then list limits, sharing the in-memory store. -/
def rateStage (slug : String) (incoming : UpdateListRequest) (env : EnvCfg)
    (now : Nat) (s : RLStore) : RLCheckOut × RLStore :=
  let ur := match uidTruthy incoming with
    | some uid => checkUserRateLimitsSave uid env now s
    | none => (⟨true, none⟩, s)
  if ur.1.allowed = false then ur
  else
    let lr := checkListRateLimits slug env now ur.2
    if lr.1.allowed = false then lr
    else (⟨true, none⟩, lr.2)

/-- The conflict test of `onRequestPut`:
`incoming.version !== undefined && incoming.version !== existing.version`. -/
def hasVersionConflict (incoming : UpdateListRequest) (existing : GutList) : Bool :=
  match incoming.version with
  | some v => v != existing.version
  | none => false

/-- `isUserItemUpdate(item)`: `'g' in item || 'u' in item || 't' in item`. -/
def isUserItemUpdate (it : IncomingItem) : Bool :=
  it.g.isSome || it.u.isSome || it.t.isSome

/-- `List.map` with the element's index, mirroring `array.map((x, i) => ...)`. -/
def mapWithIndex (f : Nat → α → β) : List α → List β
  | [] => []
  | a :: as => f 0 a :: mapWithIndex (fun n => f (n + 1)) as

/-- The effective scale of an update:
`incoming.scale !== undefined ? normalizeScale(incoming.scale, ...) : existing.scale`. -/
def effScale (incoming : UpdateListRequest) (env : EnvCfg) (existing : GutList) : Scale :=
  match incoming.scale with
  | some ps => normalizeScale (some ps) env.envMin env.envMax
  | none => existing.scale

/-- Line 124: `existing.items.map(item => normalizeItem(item, scale, maxItems))`. -/
def normExisting (existing : GutList) (scale : Scale) (env : EnvCfg)
    (genId : Nat → String) : List GutItem :=
  mapWithIndex (fun i e => normalizeItem (genId i) (toPartial e) scale env.maxItems)
    existing.items

/-- The structural-change rebuild (lines 133-148): rebuild from the incoming
items, preserving scores of the existing items matched by id. -/
def structRebuild (inItems : List IncomingItem) (existing : GutList)
    (scale : Scale) (env : EnvCfg) (genId : Nat → String) : List GutItem :=
  mapWithIndex
    (fun j inIt =>
      match existing.items.find? (fun e => inIt.id == some e.id) with
      | some existingItem =>
        let base := normalizeItem (genId j) (toPartial existingItem) scale env.maxItems
        { base with
          label := jsOrStr inIt.label existingItem.label,
          notes := match inIt.notes with
            | some n => some n
            | none => existingItem.notes }
      | none => normalizeItem (genId j) inIt scale env.maxItems)
    (inItems.take env.maxItems)

/-- The per-index user merge body (lines 152-177), applied to the item paired
with the incoming item at the same index. -/
def applyUserItem (uid : String) (scale : Scale) (inIt : IncomingItem)
    (item : GutItem) : GutItem :=
  if isUserItemUpdate inIt then
    let it1 := match inIt.label with
      | some l => { item with label := l }
      | none => item
    let it2 := match inIt.notes with
      | some n => { it1 with notes := some n }
      | none => it1
    match inIt.g, inIt.u, inIt.t with
    | some g, some u, some t => mergeUserScore it2 uid ⟨g, u, t, g * u * t⟩ scale
    | _, _, _ => it2
  else item

/-- `items1` of the userId branch: the base items after the structural-change
test (line 129) — rebuilt from the incoming items when the counts differ,
otherwise the re-normalized existing items. -/
def items1Of (inItems : List IncomingItem) (existing : GutList) (scale : Scale)
    (env : EnvCfg) (genId : Nat → String) : List GutItem :=
  if inItems.length ≠ existing.items.length then
    structRebuild inItems existing scale env genId
  else normExisting existing scale env genId

/-- The userId merge branch of `onRequestPut` (lines 127-178). -/
def userMergeItems (uid : String) (inItems : List IncomingItem)
    (existing : GutList) (scale : Scale) (env : EnvCfg)
    (genId : Nat → String) : List GutItem :=
  mapWithIndex
    (fun i item =>
      match inItems[i]? with
      | none => item
      | some inIt => applyUserItem uid scale inIt item)
    (items1Of inItems existing scale env genId)

/-- The merge phase of `onRequestPut` (lines 118-197): everything between the
conflict check and the size check, producing the candidate updated list. -/
def mergePhase (incoming : UpdateListRequest) (env : EnvCfg)
    (existing : GutList) (nowISO : String) (genId : Nat → String) : GutList :=
  let scale := effScale incoming env existing
  let items := match uidTruthy incoming, incoming.items with
    | some uid, some inItems => userMergeItems uid inItems existing scale env genId
    | none, some inItems =>
      mapWithIndex (fun j it => normalizeItem (genId j) it scale env.maxItems)
        (inItems.take env.maxItems)
    | _, none => normExisting existing scale env genId
  { title := match incoming.title with
      | some t => sanitizeTitle t
      | none => existing.title
  , items := items
  , scale := scale
  , updatedAt := nowISO
  , version := existing.version + 1 }

/-- `checkListSize` (rateLimit.ts): reject when
`byteLength / 1024 > maxSizeKB`, i.e. allow iff `byteLength ≤ maxSizeKB * 1024`. -/
def sizeAllowed (l : GutList) (env : EnvCfg) (byteLen : GutList → Nat) : Bool :=
  byteLen l ≤ env.maxSizeKB * 1024

inductive PutResult where
  | invalidUserId
  | rateLimited (retryAfter : Option Nat)
  | invalidRequest
  | notFound
  | conflict (server : GutList)
  | tooLarge
  | ok (updated : GutList)
deriving Repr, DecidableEq, Inhabited

/-- `onRequestPut` (functions/api/list/[slug].ts), as a function of the request,
the stored document under the list's key (`kv`) and the in-memory rate store.
Returns the HTTP-level outcome together with the new stored document and the
new rate store. -/
def putStep (slug : String) (incoming : UpdateListRequest) (env : EnvCfg)
    (kv : Option GutList) (rl : RLStore) (now : Nat) (nowISO : String)
    (genId : Nat → String) (byteLen : GutList → Nat) :
    PutResult × Option GutList × RLStore :=
  match userGateOk incoming with
  | false => (.invalidUserId, kv, rl)
  | true =>
    let gate := rateStage slug incoming env now rl
    match gate.1.allowed with
    | false => (.rateLimited gate.1.retryAfter, kv, gate.2)
    | true =>
      match validateList incoming env.maxItems with
      | false => (.invalidRequest, kv, gate.2)
      | true =>
        match kv with
        | none => (.notFound, none, gate.2)
        | some existing =>
          match hasVersionConflict incoming existing with
          | true => (.conflict existing, some existing, gate.2)
          | false =>
            let updated := mergePhase incoming env existing nowISO genId
            match sizeAllowed updated env byteLen with
            | false => (.tooLarge, some existing, gate.2)
            | true => (.ok updated, some updated, gate.2)

/-! ## POST /api/list (functions/api/list/index.ts) -/

/-- The list constructed and stored by `onRequestPost`. -/
def createList (body : CreateListRequest) (env : EnvCfg) (nowISO : String) : GutList :=
  { title := sanitizeTitleOpt body.title
  , items := []
  , scale := normalizeScale body.scale env.envMin env.envMax
  , updatedAt := nowISO
  , version := 1 }

/-! ## Helper lemmas: indexed map -/

theorem length_mapWithIndex (f : Nat → α → β) (l : List α) :
    (mapWithIndex f l).length = l.length := by
  induction l generalizing f with
  | nil => rfl
  | cons a as ih => simp [mapWithIndex, ih]

theorem getElem?_mapWithIndex (f : Nat → α → β) (l : List α) (i : Nat) :
    (mapWithIndex f l)[i]? = (l[i]?).map (f i) := by
  induction l generalizing f i with
  | nil => simp [mapWithIndex]
  | cons a as ih =>
    cases i with
    | zero => simp [mapWithIndex]
    | succ n => simpa [mapWithIndex] using ih (fun n => f (n + 1)) n

theorem mem_mapWithIndex {f : Nat → α → β} {l : List α} {b : β} :
    b ∈ mapWithIndex f l ↔ ∃ i : Nat, ∃ a, l[i]? = some a ∧ b = f i a := by
  rw [List.mem_iff_getElem?]
  constructor
  · rintro ⟨i, hi⟩
    rw [getElem?_mapWithIndex] at hi
    cases ha : l[i]? with
    | none => rw [ha] at hi; simp at hi
    | some a =>
      rw [ha] at hi
      simp only [Option.map_some', Option.some.injEq] at hi
      exact ⟨i, a, ha, hi.symm⟩
  · rintro ⟨i, a, ha, hb⟩
    refine ⟨i, ?_⟩
    rw [getElem?_mapWithIndex, ha, hb]
    rfl

/-! ## Helper lemmas: association lists -/

theorem alGet_alSet_self (m : List (String × A)) (k : String) (v : A) :
    alGet (alSet m k v) k = some v := by
  induction m with
  | nil => simp [alGet, alSet]
  | cons p ps ih =>
    by_cases hp : p.1 = k
    · simp [alSet, alGet, hp]
    · simp [alSet, alGet, hp, ih]

theorem alGet_alSet_other (m : List (String × A)) (k k' : String) (v : A)
    (h : k' ≠ k) : alGet (alSet m k v) k' = alGet m k' := by
  have h' : k ≠ k' := fun hkk => h hkk.symm
  induction m with
  | nil => simp [alGet, alSet, h']
  | cons p ps ih =>
    by_cases hp : p.1 = k
    · have hp' : p.1 ≠ k' := by rw [hp]; exact h'
      simp [alSet, alGet, hp, h', hp']
    · by_cases hp' : p.1 = k'
      · simp [alSet, alGet, hp, hp', h]
      · simp [alSet, alGet, hp, hp', ih]

/-! ## Helper lemmas: rate governor -/

theorem checkRateLimit_fresh (s : RLStore) (key : String) (limit windowMs now : Nat)
    (h : rlGet s key = none) :
    checkRateLimit s key limit windowMs now
      = (⟨true, none, 1⟩, rlSet s key ⟨1, now + windowMs⟩) := by
  unfold checkRateLimit
  rw [h]

theorem checkRateLimit_expired (s : RLStore) (key : String) (limit windowMs now : Nat)
    (e : RLEntry) (h : rlGet s key = some e) (hx : e.resetAt < now) :
    checkRateLimit s key limit windowMs now
      = (⟨true, none, 1⟩, rlSet s key ⟨1, now + windowMs⟩) := by
  unfold checkRateLimit
  rw [h]
  simp [hx]

theorem checkRateLimit_active_below (s : RLStore) (key : String)
    (limit windowMs now : Nat) (e : RLEntry) (h : rlGet s key = some e)
    (hw : now ≤ e.resetAt) (hc : e.count < limit) :
    checkRateLimit s key limit windowMs now
      = (⟨true, none, e.count + 1⟩, rlSet s key ⟨e.count + 1, e.resetAt⟩) := by
  unfold checkRateLimit
  rw [h]
  simp [Nat.not_lt.mpr hw, Nat.not_le.mpr hc]

theorem checkRateLimit_at_limit (s : RLStore) (key : String)
    (limit windowMs now : Nat) (e : RLEntry) (h : rlGet s key = some e)
    (hw : now ≤ e.resetAt) (hc : limit ≤ e.count) :
    checkRateLimit s key limit windowMs now
      = (⟨false, some ((e.resetAt - now + 999) / 1000), e.count⟩, s) := by
  unfold checkRateLimit
  rw [h]
  simp [Nat.not_lt.mpr hw, hc]

/-- An allowed `checkRateLimit` call changes no key other than its own. -/
theorem checkRateLimit_other_key (s : RLStore) (key k' : String)
    (limit windowMs now : Nat) (h : k' ≠ key) :
    rlGet (checkRateLimit s key limit windowMs now).2 k' = rlGet s k' := by
  unfold checkRateLimit
  cases hg : rlGet s key with
  | none => exact alGet_alSet_other s key k' _ h
  | some e =>
    by_cases hx : e.resetAt < now
    · simp only [hx, if_true]
      exact alGet_alSet_other s key k' _ h
    · by_cases hc : limit ≤ e.count
      · simp [hx, hc]
      · simp only [hx, if_false, hc]
        exact alGet_alSet_other s key k' _ h

/-- After any `checkRateLimit` call, its key holds a positive count. -/
theorem checkRateLimit_consumes (s : RLStore) (key : String)
    (limit windowMs now : Nat)
    (hallow : (checkRateLimit s key limit windowMs now).1.allowed = true) :
    rlGet (checkRateLimit s key limit windowMs now).2 key
      = some (match rlGet s key with
          | none => ⟨1, now + windowMs⟩
          | some e =>
            if e.resetAt < now then ⟨1, now + windowMs⟩
            else ⟨e.count + 1, e.resetAt⟩) := by
  cases hg : rlGet s key with
  | none =>
    rw [checkRateLimit_fresh s key limit windowMs now hg]
    exact alGet_alSet_self s key _
  | some e =>
    by_cases hx : e.resetAt < now
    · rw [checkRateLimit_expired s key limit windowMs now e hg hx]
      simp only [hx, if_true]
      exact alGet_alSet_self s key _
    · have hw : now ≤ e.resetAt := Nat.not_lt.mp hx
      by_cases hc : e.count < limit
      · rw [checkRateLimit_active_below s key limit windowMs now e hg hw hc]
        simp only [hx, if_false]
        exact alGet_alSet_self s key _
      · rw [checkRateLimit_at_limit s key limit windowMs now e hg hw
          (Nat.not_lt.mp hc)] at hallow
        simp at hallow

/-! ## Helper lemmas: the three rate keys are pairwise distinct -/

theorem string_data_append (s t : String) : (s ++ t).data = s.data ++ t.data := by
  cases s
  cases t
  rfl

theorem string_length_append (s t : String) : (s ++ t).length = s.length + t.length := by
  cases s with
  | mk a =>
    cases t with
    | mk b =>
      show (a ++ b).length = a.length + b.length
      exact List.length_append a b

theorem userMinKey_ne_userHourKey (uid : String) : userMinKey uid ≠ userHourKey uid := by
  intro h
  have hl := congrArg String.length h
  rw [userMinKey, userHourKey, string_length_append, string_length_append,
    string_length_append, string_length_append] at hl
  have h1 : (":save:minute" : String).length = 12 := by decide
  have h2 : (":save:hour" : String).length = 10 := by decide
  rw [h1, h2] at hl
  omega

theorem userMinKey_ne_listMinKey (uid slug : String) :
    userMinKey uid ≠ listMinKey slug := by
  intro h
  have hd := congrArg String.data h
  rw [userMinKey, listMinKey, string_data_append, string_data_append,
    string_data_append, string_data_append] at hd
  have : "user:".data = 'u' :: "ser:".data := rfl
  rw [this] at hd
  have : "list:".data = 'l' :: "ist:".data := rfl
  rw [this] at hd
  simp only [List.cons_append, List.cons.injEq] at hd
  exact absurd hd.1 (by decide)

theorem userHourKey_ne_listMinKey (uid slug : String) :
    userHourKey uid ≠ listMinKey slug := by
  intro h
  have hd := congrArg String.data h
  rw [userHourKey, listMinKey, string_data_append, string_data_append,
    string_data_append, string_data_append] at hd
  have : "user:".data = 'u' :: "ser:".data := rfl
  rw [this] at hd
  have : "list:".data = 'l' :: "ist:".data := rfl
  rw [this] at hd
  simp only [List.cons_append, List.cons.injEq] at hd
  exact absurd hd.1 (by decide)

/-! ## Helper lemmas: rate stage of the PUT handler -/

/-- With rate limiting disabled every check passes and the store is untouched. -/
theorem rateStage_disabled (slug : String) (inc : UpdateListRequest) (env : EnvCfg)
    (now : Nat) (s : RLStore) (hen : env.enableRateLimiting = false) :
    rateStage slug inc env now s = (⟨true, none⟩, s) := by
  unfold rateStage checkUserRateLimitsSave checkListRateLimits
  cases huid : uidTruthy inc with
  | none => simp [hen]
  | some uid => simp [hen]

/-- One fixed-window counter was consumed exactly once between two store
snapshots: a fresh or expired key now carries count 1 and a full window, an
active key carries its old count plus one and the old reset time. -/
def consumedOne (s s' : RLStore) (k : String) (windowMs now : Nat) : Prop :=
  rlGet s' k = some (match rlGet s k with
    | none => ⟨1, now + windowMs⟩
    | some e =>
      if e.resetAt < now then ⟨1, now + windowMs⟩
      else ⟨e.count + 1, e.resetAt⟩)

theorem checkUserRateLimitsSave_allowed (uid : String) (env : EnvCfg) (now : Nat)
    (s : RLStore) (hen : env.enableRateLimiting = true)
    (h : (checkUserRateLimitsSave uid env now s).1.allowed = true) :
    (checkRateLimit s (userMinKey uid) env.maxSavesPerUserPerMinute 60000 now).1.allowed
        = true
      ∧ (checkRateLimit
          (checkRateLimit s (userMinKey uid) env.maxSavesPerUserPerMinute 60000 now).2
          (userHourKey uid) env.maxSavesPerUserPerHour 3600000 now).1.allowed = true
      ∧ (checkUserRateLimitsSave uid env now s).2
        = (checkRateLimit
            (checkRateLimit s (userMinKey uid) env.maxSavesPerUserPerMinute 60000 now).2
            (userHourKey uid) env.maxSavesPerUserPerHour 3600000 now).2 := by
  unfold checkUserRateLimitsSave at h ⊢
  cases h1 : (checkRateLimit s (userMinKey uid) env.maxSavesPerUserPerMinute
      60000 now).1.allowed with
  | false => simp [hen, h1] at h
  | true =>
    cases h2 : (checkRateLimit
        (checkRateLimit s (userMinKey uid) env.maxSavesPerUserPerMinute 60000 now).2
        (userHourKey uid) env.maxSavesPerUserPerHour 3600000 now).1.allowed with
    | false => simp [hen, h1, h2] at h
    | true => simp [hen, h1, h2]

theorem checkListRateLimits_allowed (slug : String) (env : EnvCfg) (now : Nat)
    (s : RLStore) (hen : env.enableRateLimiting = true)
    (h : (checkListRateLimits slug env now s).1.allowed = true) :
    (checkRateLimit s (listMinKey slug) env.maxSavesPerListPerMinute 60000 now).1.allowed
        = true
      ∧ (checkListRateLimits slug env now s).2
        = (checkRateLimit s (listMinKey slug) env.maxSavesPerListPerMinute 60000 now).2 := by
  unfold checkListRateLimits at h ⊢
  cases h1 : (checkRateLimit s (listMinKey slug) env.maxSavesPerListPerMinute
      60000 now).1.allowed with
  | false => simp [hen, h1] at h
  | true => simp [hen, h1]

/-- When rate limiting is enabled, a truthy userId is present, and the whole
rate stage allows, each of the three applicable windows was consumed exactly
once, measured against the store as it was before the request. -/
theorem rateStage_enabled_consumes (slug : String) (inc : UpdateListRequest)
    (env : EnvCfg) (now : Nat) (s : RLStore) (uid : String)
    (hen : env.enableRateLimiting = true) (huid : uidTruthy inc = some uid)
    (hall : (rateStage slug inc env now s).1.allowed = true) :
    consumedOne s (rateStage slug inc env now s).2 (userMinKey uid) 60000 now
      ∧ consumedOne s (rateStage slug inc env now s).2 (userHourKey uid) 3600000 now
      ∧ consumedOne s (rateStage slug inc env now s).2 (listMinKey slug) 60000 now := by
  unfold rateStage at hall ⊢
  rw [huid] at hall ⊢
  cases hu : (checkUserRateLimitsSave uid env now s).1.allowed with
  | false => simp [hu] at hall
  | true =>
    cases hl : (checkListRateLimits slug env now
        (checkUserRateLimitsSave uid env now s).2).1.allowed with
    | false => simp [hu, hl] at hall
    | true =>
      simp only [hu, hl, Bool.true_eq_false, if_false]
      obtain ⟨ha1, ha2, hs2⟩ := checkUserRateLimitsSave_allowed uid env now s hen hu
      obtain ⟨hb1, hsl⟩ := checkListRateLimits_allowed slug env now
        (checkUserRateLimitsSave uid env now s).2 hen hl
      -- abbreviations for the three successive stores
      refine ⟨?_, ?_, ?_⟩
      · show rlGet (checkListRateLimits slug env now
          (checkUserRateLimitsSave uid env now s).2).2 (userMinKey uid) = _
        rw [hsl, checkRateLimit_other_key _ _ _ _ _ _
            (userMinKey_ne_listMinKey uid slug), hs2,
          checkRateLimit_other_key _ _ _ _ _ _ (userMinKey_ne_userHourKey uid)]
        exact checkRateLimit_consumes s (userMinKey uid) _ 60000 now ha1
      · show rlGet (checkListRateLimits slug env now
          (checkUserRateLimitsSave uid env now s).2).2 (userHourKey uid) = _
        rw [hsl, checkRateLimit_other_key _ _ _ _ _ _
            (userHourKey_ne_listMinKey uid slug), hs2]
        have hcons := checkRateLimit_consumes
          (checkRateLimit s (userMinKey uid) env.maxSavesPerUserPerMinute 60000 now).2
          (userHourKey uid) env.maxSavesPerUserPerHour 3600000 now ha2
        rw [hcons, checkRateLimit_other_key _ _ _ _ _ _
          (fun hh => userMinKey_ne_userHourKey uid hh.symm)]
      · show rlGet (checkListRateLimits slug env now
          (checkUserRateLimitsSave uid env now s).2).2 (listMinKey slug) = _
        rw [hsl]
        have hcons := checkRateLimit_consumes
          (checkUserRateLimitsSave uid env now s).2 (listMinKey slug)
          env.maxSavesPerListPerMinute 60000 now hb1
        rw [hcons, hs2, checkRateLimit_other_key _ _ _ _ _ _
            (fun hh => userHourKey_ne_listMinKey uid slug hh.symm),
          checkRateLimit_other_key _ _ _ _ _ _
            (fun hh => userMinKey_ne_listMinKey uid slug hh.symm)]

/-! ## Helper lemmas: characterizing the PUT handler -/

/-- Successful-run equation: when every gate passes, `putStep` returns exactly
the merged document and persists it. -/
theorem putStep_run_ok (slug : String) (inc : UpdateListRequest) (env : EnvCfg)
    (ex : GutList) (rl : RLStore) (now : Nat) (nowISO : String)
    (genId : Nat → String) (byteLen : GutList → Nat)
    (hg : userGateOk inc = true)
    (hr : (rateStage slug inc env now rl).1.allowed = true)
    (hv : validateList inc env.maxItems = true)
    (hc : hasVersionConflict inc ex = false)
    (hs : sizeAllowed (mergePhase inc env ex nowISO genId) env byteLen = true) :
    putStep slug inc env (some ex) rl now nowISO genId byteLen
      = (.ok (mergePhase inc env ex nowISO genId),
          some (mergePhase inc env ex nowISO genId),
          (rateStage slug inc env now rl).2) := by
  unfold putStep
  simp only [hg, hr, hv, hc, hs]

/-- Conflict-run equation: when the gates pass and the version mismatches,
`putStep` answers with the stored document and leaves storage untouched. -/
theorem putStep_run_conflict (slug : String) (inc : UpdateListRequest) (env : EnvCfg)
    (ex : GutList) (rl : RLStore) (now : Nat) (nowISO : String)
    (genId : Nat → String) (byteLen : GutList → Nat)
    (hg : userGateOk inc = true)
    (hr : (rateStage slug inc env now rl).1.allowed = true)
    (hv : validateList inc env.maxItems = true)
    (hc : hasVersionConflict inc ex = true) :
    putStep slug inc env (some ex) rl now nowISO genId byteLen
      = (.conflict ex, some ex, (rateStage slug inc env now rl).2) := by
  unfold putStep
  simp only [hg, hr, hv, hc]

/-- Inversion: a conflict answer can only arise from the conflict branch. -/
theorem putStep_conflict_inv (slug : String) (inc : UpdateListRequest) (env : EnvCfg)
    (kv : Option GutList) (rl : RLStore) (now : Nat) (nowISO : String)
    (genId : Nat → String) (byteLen : GutList → Nat) (srv : GutList)
    (h : (putStep slug inc env kv rl now nowISO genId byteLen).1 = .conflict srv) :
    kv = some srv ∧ hasVersionConflict inc srv = true
      ∧ (putStep slug inc env kv rl now nowISO genId byteLen).2.1 = kv := by
  unfold putStep at h ⊢
  cases hg : userGateOk inc with
  | false => rw [hg] at h; simp at h
  | true =>
    rw [hg] at h
    simp only [] at h ⊢
    cases hr : (rateStage slug inc env now rl).1.allowed with
    | false => simp [hr] at h
    | true =>
      cases hv : validateList inc env.maxItems with
      | false => simp [hr, hv] at h
      | true =>
        cases kv with
        | none => simp [hr, hv] at h
        | some ex =>
          cases hc : hasVersionConflict inc ex with
          | true =>
            simp only [hr, hv, hc] at h ⊢
            simp at h
            subst h
            exact ⟨rfl, hc, by simp⟩
          | false =>
            cases hs : sizeAllowed (mergePhase inc env ex nowISO genId) env byteLen with
            | false => simp [hr, hv, hc, hs] at h
            | true => simp [hr, hv, hc, hs] at h

/-- Inversion: a success answer can only arise with every gate passed, and the
returned document is the merge of the stored one. -/
theorem putStep_ok_inv (slug : String) (inc : UpdateListRequest) (env : EnvCfg)
    (kv : Option GutList) (rl : RLStore) (now : Nat) (nowISO : String)
    (genId : Nat → String) (byteLen : GutList → Nat) (upd : GutList)
    (h : (putStep slug inc env kv rl now nowISO genId byteLen).1 = .ok upd) :
    ∃ ex, kv = some ex ∧ userGateOk inc = true
      ∧ (rateStage slug inc env now rl).1.allowed = true
      ∧ validateList inc env.maxItems = true
      ∧ hasVersionConflict inc ex = false
      ∧ upd = mergePhase inc env ex nowISO genId
      ∧ (putStep slug inc env kv rl now nowISO genId byteLen).2.1 = some upd := by
  unfold putStep at h ⊢
  cases hg : userGateOk inc with
  | false => rw [hg] at h; simp at h
  | true =>
    rw [hg] at h
    simp only [] at h ⊢
    cases hr : (rateStage slug inc env now rl).1.allowed with
    | false => simp [hr] at h
    | true =>
      cases hv : validateList inc env.maxItems with
      | false => simp [hr, hv] at h
      | true =>
        cases kv with
        | none => simp [hr, hv] at h
        | some ex =>
          cases hc : hasVersionConflict inc ex with
          | true => simp [hr, hv, hc] at h
          | false =>
            cases hs : sizeAllowed (mergePhase inc env ex nowISO genId) env byteLen with
            | false => simp [hr, hv, hc, hs] at h
            | true =>
              simp only [hr, hv, hc, hs] at h ⊢
              simp at h
              refine ⟨ex, ?_, ?_, ?_, ?_, ?_, h.symm, by simp [h]⟩ <;> trivial

/-- Frame for failing runs: an invalid-request, not-found, conflict or
too-large outcome leaves storage untouched and keeps the rate store exactly as
the rate stage left it, with every rate gate having passed (and charged). -/
theorem putStep_fail_frame (slug : String) (inc : UpdateListRequest) (env : EnvCfg)
    (kv : Option GutList) (rl : RLStore) (now : Nat) (nowISO : String)
    (genId : Nat → String) (byteLen : GutList → Nat)
    (h : (putStep slug inc env kv rl now nowISO genId byteLen).1 = .invalidRequest
      ∨ (putStep slug inc env kv rl now nowISO genId byteLen).1 = .notFound
      ∨ (∃ srv, (putStep slug inc env kv rl now nowISO genId byteLen).1 = .conflict srv)
      ∨ (putStep slug inc env kv rl now nowISO genId byteLen).1 = .tooLarge) :
    userGateOk inc = true
      ∧ (rateStage slug inc env now rl).1.allowed = true
      ∧ (putStep slug inc env kv rl now nowISO genId byteLen).2.1 = kv
      ∧ (putStep slug inc env kv rl now nowISO genId byteLen).2.2
        = (rateStage slug inc env now rl).2 := by
  unfold putStep at h ⊢
  cases hg : userGateOk inc with
  | false => rw [hg] at h; simp at h
  | true =>
    rw [hg] at h
    simp only [] at h ⊢
    cases hr : (rateStage slug inc env now rl).1.allowed with
    | false => simp [hr] at h
    | true =>
      refine ⟨by trivial, by trivial, ?_⟩
      cases hv : validateList inc env.maxItems with
      | false => simp [hr, hv]
      | true =>
        cases kv with
        | none => simp [hr, hv]
        | some ex =>
          cases hc : hasVersionConflict inc ex with
          | true => simp [hr, hv, hc]
          | false =>
            cases hs : sizeAllowed (mergePhase inc env ex nowISO genId) env byteLen with
            | false => simp [hr, hv, hc, hs]
            | true => simp [hr, hv, hc, hs] at h

/-! ## Helper lemmas: the per-item user merge -/

theorem normalizeItem_toPartial_scores (fresh : String) (e : GutItem) (scale : Scale)
    (mi : Nat) : (normalizeItem fresh (toPartial e) scale mi).scores = e.scores := rfl

theorem normalizeItem_toPartial_id (fresh : String) (e : GutItem) (scale : Scale)
    (mi : Nat) (h : e.id ≠ "") :
    (normalizeItem fresh (toPartial e) scale mi).id = e.id := by
  simp [normalizeItem, toPartial, h]

theorem applyUserItem_id (uid : String) (scale : Scale) (inIt : IncomingItem)
    (item : GutItem) : (applyUserItem uid scale inIt item).id = item.id := by
  unfold applyUserItem
  by_cases hi : isUserItemUpdate inIt
  · simp only [hi, if_true]
    cases inIt.label <;> cases inIt.notes <;> cases inIt.g <;> cases inIt.u <;>
      cases inIt.t <;> simp [mergeUserScore]
  · simp [hi]

theorem applyUserItem_scores_other (uid : String) (scale : Scale)
    (inIt : IncomingItem) (item : GutItem) (u2 : String) (h : u2 ≠ uid) :
    objGet (applyUserItem uid scale inIt item).scores u2 = objGet item.scores u2 := by
  unfold applyUserItem
  by_cases hi : isUserItemUpdate inIt
  · simp only [hi, if_true]
    cases inIt.label <;> cases inIt.notes <;> cases inIt.g <;> cases inIt.u <;>
      cases inIt.t <;>
      simp [mergeUserScore, objGet, objSet, alGet_alSet_other, h]
  · simp [hi]

theorem applyUserItem_complete (uid : String) (scale : Scale) (inIt : IncomingItem)
    (item : GutItem) (g u t : ℚ) (hg : inIt.g = some g) (hu : inIt.u = some u)
    (ht : inIt.t = some t) :
    objGet (applyUserItem uid scale inIt item).scores uid
        = some (normalizeUserScore ⟨some g, some u, some t, some (g * u * t)⟩ scale)
      ∧ (applyUserItem uid scale inIt item).avgScore
        = calculateAverageScore (applyUserItem uid scale inIt item).scores := by
  have hi : isUserItemUpdate inIt = true := by
    simp [isUserItemUpdate, hg]
  unfold applyUserItem
  simp only [hi, if_true, hg, hu, ht]
  cases inIt.label <;> cases inIt.notes <;>
    simp [mergeUserScore, objGet, objSet, toPartialUS, alGet_alSet_self]

theorem applyUserItem_incomplete (uid : String) (scale : Scale) (inIt : IncomingItem)
    (item : GutItem) (h : inIt.g = none ∨ inIt.u = none ∨ inIt.t = none) :
    (applyUserItem uid scale inIt item).scores = item.scores := by
  unfold applyUserItem
  by_cases hi : isUserItemUpdate inIt
  · simp only [hi, if_true]
    rcases h with h | h | h <;>
      cases inIt.label <;> cases inIt.notes <;> cases hg : inIt.g <;>
        cases hu : inIt.u <;> cases ht : inIt.t <;>
        simp_all
  · simp [hi]

/-! ## Helper lemmas: the items pipeline of the merge phase -/

theorem normExisting_getElem? (ex : GutList) (scale : Scale) (env : EnvCfg)
    (gid : Nat → String) (i : Nat) :
    (normExisting ex scale env gid)[i]?
      = (ex.items[i]?).map
          (fun e => normalizeItem (gid i) (toPartial e) scale env.maxItems) := by
  unfold normExisting
  rw [getElem?_mapWithIndex]

theorem structRebuild_getElem? (inItems : List IncomingItem) (ex : GutList)
    (scale : Scale) (env : EnvCfg) (gid : Nat → String) (i : Nat) :
    (structRebuild inItems ex scale env gid)[i]?
      = ((inItems.take env.maxItems)[i]?).map
          (fun inIt =>
            match ex.items.find? (fun e => inIt.id == some e.id) with
            | some existingItem =>
              { normalizeItem (gid i) (toPartial existingItem) scale env.maxItems with
                label := jsOrStr inIt.label existingItem.label,
                notes := match inIt.notes with
                  | some n => some n
                  | none => existingItem.notes }
            | none => normalizeItem (gid i) inIt scale env.maxItems) := by
  unfold structRebuild
  rw [getElem?_mapWithIndex]

theorem userMergeItems_getElem? (uid : String) (inItems : List IncomingItem)
    (ex : GutList) (scale : Scale) (env : EnvCfg) (gid : Nat → String) (i : Nat) :
    (userMergeItems uid inItems ex scale env gid)[i]?
      = ((items1Of inItems ex scale env gid)[i]?).map
          (fun item =>
            match inItems[i]? with
            | none => item
            | some inIt => applyUserItem uid scale inIt item) := by
  unfold userMergeItems
  rw [getElem?_mapWithIndex]

/-! ## Helper lemmas: merge phase plumbing -/

theorem validateUserId_empty : validateUserId "" = false := by decide

theorem uidTruthy_of_gate (inc : UpdateListRequest) (B : String)
    (hB : inc.userId = some B) (hg : userGateOk inc = true) :
    uidTruthy inc = some B ∧ B ≠ "" := by
  have hv : validateUserId B = true := by
    unfold userGateOk at hg
    rw [hB] at hg
    exact hg
  have hBne : B ≠ "" := by
    intro h
    rw [h, validateUserId_empty] at hv
    exact Bool.noConfusion hv
  constructor
  · unfold uidTruthy
    rw [hB]
    simp [hBne]
  · exact hBne

theorem mergePhase_items_user (inc : UpdateListRequest) (env : EnvCfg)
    (ex : GutList) (iso : String) (gid : Nat → String) (uid : String)
    (inItems : List IncomingItem) (hu : uidTruthy inc = some uid)
    (hit : inc.items = some inItems) :
    (mergePhase inc env ex iso gid).items
      = userMergeItems uid inItems ex (effScale inc env ex) env gid := by
  simp only [mergePhase, hu, hit]

theorem mergePhase_items_user_noitems (inc : UpdateListRequest) (env : EnvCfg)
    (ex : GutList) (iso : String) (gid : Nat → String) (uid : String)
    (hu : uidTruthy inc = some uid) (hit : inc.items = none) :
    (mergePhase inc env ex iso gid).items
      = normExisting ex (effScale inc env ex) env gid := by
  simp only [mergePhase, hu, hit]

theorem mergePhase_items_replace (inc : UpdateListRequest) (env : EnvCfg)
    (ex : GutList) (iso : String) (gid : Nat → String)
    (inItems : List IncomingItem) (hu : uidTruthy inc = none)
    (hit : inc.items = some inItems) :
    (mergePhase inc env ex iso gid).items
      = mapWithIndex
          (fun j it => normalizeItem (gid j) it (effScale inc env ex) env.maxItems)
          (inItems.take env.maxItems) := by
  simp only [mergePhase, hu, hit]

theorem mergePhase_version (inc : UpdateListRequest) (env : EnvCfg) (ex : GutList)
    (iso : String) (gid : Nat → String) :
    (mergePhase inc env ex iso gid).version = ex.version + 1 := by
  simp only [mergePhase]

theorem mergePhase_scale (inc : UpdateListRequest) (env : EnvCfg) (ex : GutList)
    (iso : String) (gid : Nat → String) :
    (mergePhase inc env ex iso gid).scale = effScale inc env ex := by
  simp only [mergePhase]

/-! ## Helper lemmas: identifying the base item behind a merged item -/

/-- In the base list `items1`, an item carrying the id of a stored item `e` (in
a store with unique nonempty ids, and with collision-free generated ids)
carries exactly `e`'s scores map. -/
theorem items1Of_scores_of_id (inItems : List IncomingItem) (ex : GutList)
    (scale : Scale) (env : EnvCfg) (gid : Nat → String) (e : GutItem)
    (hnodup : (ex.items.map (fun it => it.id)).Nodup)
    (hne : ∀ it ∈ ex.items, it.id ≠ "")
    (hgen : ∀ n, gid n ∉ ex.items.map (fun it => it.id))
    (he : e ∈ ex.items) (i : Nat) (item1 : GutItem)
    (h1 : (items1Of inItems ex scale env gid)[i]? = some item1)
    (hid : item1.id = e.id) :
    item1.scores = e.scores := by
  unfold items1Of at h1
  by_cases hst : inItems.length ≠ ex.items.length
  · rw [if_pos hst, structRebuild_getElem?] at h1
    cases hin : (inItems.take env.maxItems)[i]? with
    | none => rw [hin] at h1; exact Option.noConfusion h1
    | some inIt =>
      rw [hin] at h1
      simp only [Option.map_some', Option.some.injEq] at h1
      cases hf : ex.items.find? (fun e2 => inIt.id == some e2.id) with
      | some e2 =>
        rw [hf] at h1
        have he2 : e2 ∈ ex.items := List.mem_of_find?_eq_some hf
        have hbid : item1.id = e2.id := by
          rw [← h1]
          show (normalizeItem (gid i) (toPartial e2) scale env.maxItems).id = e2.id
          exact normalizeItem_toPartial_id _ _ _ _ (hne e2 he2)
        have he2e : e2 = e :=
          List.inj_on_of_nodup_map hnodup he2 he (by rw [← hbid, hid])
        rw [← h1]
        show (normalizeItem (gid i) (toPartial e2) scale env.maxItems).scores = e.scores
        rw [normalizeItem_toPartial_scores, he2e]
      | none =>
        rw [hf] at h1
        exfalso
        have hidm : e.id ∈ ex.items.map (fun it => it.id) :=
          List.mem_map_of_mem (fun it => it.id) he
        cases hiid : inIt.id with
        | none =>
          have : item1.id = gid i := by rw [← h1]; simp [normalizeItem, hiid]
          exact hgen i (by rw [← this, hid]; exact hidm)
        | some s =>
          by_cases hs : s = ""
          · have : item1.id = gid i := by rw [← h1]; simp [normalizeItem, hiid, hs]
            exact hgen i (by rw [← this, hid]; exact hidm)
          · have hsid : item1.id = s := by rw [← h1]; simp [normalizeItem, hiid, hs]
            have : ¬ (inIt.id == some e.id) = true := List.find?_eq_none.mp hf e he
            rw [hiid] at this
            apply this
            simp only [beq_iff_eq, Option.some.injEq]
            rw [← hid, hsid]
  · rw [if_neg hst, normExisting_getElem?] at h1
    cases hin : ex.items[i]? with
    | none => rw [hin] at h1; exact Option.noConfusion h1
    | some e2 =>
      rw [hin] at h1
      simp only [Option.map_some', Option.some.injEq] at h1
      have he2 : e2 ∈ ex.items := List.mem_iff_getElem?.mpr ⟨i, hin⟩
      have hbid : item1.id = e2.id := by
        rw [← h1]
        exact normalizeItem_toPartial_id _ _ _ _ (hne e2 he2)
      have he2e : e2 = e :=
        List.inj_on_of_nodup_map hnodup he2 he (by rw [← hbid, hid])
      rw [← h1, normalizeItem_toPartial_scores, he2e]

/-! ## Concrete fixtures shared by witnesses and counterexamples -/

/-- A configuration with rate limiting disabled (the default deployment). -/
def envOff : EnvCfg := ⟨500, 1, 5, false, 2, 30, 10, 100⟩

/-- The same configuration with rate limiting enabled. -/
def envOn : EnvCfg := ⟨500, 1, 5, true, 2, 30, 10, 100⟩

def uidB : String := "aaaaaaaa-aaaa-aaaa-aaaa-aaaaaaaaaaaa"

def uidA : String := "bbbbbbbb-bbbb-bbbb-bbbb-bbbbbbbbbbbb"

/-- A uuid generator for fixture runs (never used when ids are present). -/
def genZ : Nat → String := fun _ => "zz"

/-- A size measure under which every document fits the ceiling. -/
def zeroLen : GutList → Nat := fun _ => 0

/-! ## C2 -/

/-- C2: in any successful update by user `B`, a stored item `e` (in a store
with unique, nonempty, generator-fresh ids) that survives under its id keeps
every other user's score entry — in particular `userA`'s entry byte-for-byte —
and only `B`'s entry can differ. -/
theorem C2_merge_non_destructive
    (slug : String) (inc : UpdateListRequest) (env : EnvCfg) (ex upd : GutList)
    (rl : RLStore) (now : Nat) (iso : String) (gid : Nat → String)
    (bl : GutList → Nat) (B A : String) (e r : GutItem) (sA : UserScore)
    (hok : (putStep slug inc env (some ex) rl now iso gid bl).1 = .ok upd)
    (hB : inc.userId = some B)
    (hA : A ≠ B)
    (hnodup : (ex.items.map (fun it => it.id)).Nodup)
    (hne : ∀ it ∈ ex.items, it.id ≠ "")
    (hgen : ∀ n, gid n ∉ ex.items.map (fun it => it.id))
    (he : e ∈ ex.items) (hsA : objGet e.scores A = some sA)
    (hr : r ∈ upd.items) (hid : r.id = e.id) :
    objGet r.scores A = some sA
      ∧ ∀ u2, u2 ≠ B → objGet r.scores u2 = objGet e.scores u2 := by
  obtain ⟨ex', hkv, hg, _hrate, _hv, _hc, hupd, _hst⟩ :=
    putStep_ok_inv slug inc env (some ex) rl now iso gid bl upd hok
  have hex : ex = ex' := by injection hkv
  subst hex
  obtain ⟨huidT, _hBne⟩ := uidTruthy_of_gate inc B hB hg
  suffices hmain : ∀ u2, u2 ≠ B → objGet r.scores u2 = objGet e.scores u2 by
    refine ⟨?_, hmain⟩
    rw [hmain A hA, hsA]
  intro u2 hu2
  cases hitems : inc.items with
  | none =>
    rw [hupd, mergePhase_items_user_noitems inc env ex iso gid B huidT hitems] at hr
    unfold normExisting at hr
    obtain ⟨i, e2, hin, hre⟩ := mem_mapWithIndex.mp hr
    have he2 : e2 ∈ ex.items := List.mem_iff_getElem?.mpr ⟨i, hin⟩
    have hrid : r.id = e2.id := by
      rw [hre]
      exact normalizeItem_toPartial_id _ _ _ _ (hne e2 he2)
    have he2e : e2 = e :=
      List.inj_on_of_nodup_map hnodup he2 he (by rw [← hrid, hid])
    rw [hre, normalizeItem_toPartial_scores, he2e]
  | some inItems =>
    rw [hupd, mergePhase_items_user inc env ex iso gid B inItems huidT hitems] at hr
    unfold userMergeItems at hr
    obtain ⟨i, item1, h1, hre⟩ := mem_mapWithIndex.mp hr
    have hstep : r.id = item1.id
        ∧ objGet r.scores u2 = objGet item1.scores u2 := by
      cases hini : inItems[i]? with
      | none => rw [hini] at hre; simp only [] at hre; rw [hre]; exact ⟨rfl, rfl⟩
      | some inIt =>
        rw [hini] at hre
        simp only [] at hre
        rw [hre]
        exact ⟨applyUserItem_id B _ inIt item1,
          applyUserItem_scores_other B _ inIt item1 u2 hu2⟩
    have hsc1 : item1.scores = e.scores :=
      items1Of_scores_of_id inItems ex (effScale inc env ex) env gid e hnodup hne
        hgen he i item1 h1 (by rw [← hstep.1, hid])
    rw [hstep.2, hsc1]

def sA0 : UserScore := ⟨2, 2, 2, 8⟩

def c2item : GutItem := ⟨"a", "A", [(uidA, sA0)], none, none⟩

def c2ex : GutList := ⟨"T", [c2item], ⟨1, 5⟩, "t0", 1⟩

def c2inc : UpdateListRequest :=
  ⟨none, some [⟨some "a", none, none, none, none, some 1, some 1, some 1⟩],
    none, none, some uidB⟩

def c2r : GutItem :=
  ⟨"a", "A", [(uidA, sA0), (uidB, ⟨1, 1, 1, 1⟩)], some ⟨3/2, 3/2, 3/2, 9/2, 2⟩, none⟩

def c2upd : GutList := ⟨"T", [c2r], ⟨1, 5⟩, "t1", 2⟩

theorem c2_merge_eval : mergePhase c2inc envOff c2ex "t1" genZ = c2upd := by
  simp +decide [mergePhase, c2inc, uidTruthy, effScale, c2ex, userMergeItems,
    items1Of, c2item, normExisting, structRebuild, mapWithIndex, applyUserItem,
    isUserItemUpdate, mergeUserScore, toPartialUS, normalizeItem, toPartial,
    normLabel, normNotes, jsOrStr, jsTrim, objSet, alSet, envOff, uidA, uidB,
    c2upd, c2r]
  refine ⟨?_, ?_⟩ <;>
    norm_num [normalizeUserScore, numOr, clamp, calculateScore, min_def, max_def,
      calculateAverageScore, jsRound1, jsRound, sA0, uidA, uidB]

theorem c2_put_eval :
    (putStep "s" c2inc envOff (some c2ex) [] 0 "t1" genZ zeroLen).1 = .ok c2upd := by
  rw [putStep_run_ok "s" c2inc envOff c2ex [] 0 "t1" genZ zeroLen
    (by decide)
    (by rw [rateStage_disabled "s" c2inc envOff 0 [] rfl])
    (by decide) (by decide) (by decide)]
  rw [c2_merge_eval]

/-- C2 witness: a concrete successful update by `uidB` on an item carrying
`uidA`'s score `⟨2,2,2,8⟩` leaves that entry untouched. -/
theorem C2_merge_non_destructive_witness : objGet c2r.scores uidA = some sA0 :=
  (C2_merge_non_destructive "s" c2inc envOff c2ex c2upd [] 0 "t1" genZ zeroLen
    uidB uidA c2item c2r sA0 c2_put_eval rfl (by decide) (by decide) (by decide)
    (by intro n; simp only [genZ]; decide) (List.Mem.head _) rfl (List.Mem.head _) rfl).1

/-! ## C9 -/

/-- C9: `checkRateLimit` initializes a fresh or expired key to
`{count 1, resetAt now+windowMs}` and allows with `current = 1`; an in-window
call below the limit allows and increments; at the limit it rejects with
`current` equal to the stored count and `retryAfter` the ceiling of the
milliseconds to reset over 1000, positive strictly inside the window; and with
limit 2 three consecutive calls give allowed `true, true, false` with the third
carrying `current = 2`. -/
theorem C9_rate_governor (s : RLStore) (key : String) (limit windowMs now : Nat) :
    ((rlGet s key = none ∨ ∃ e, rlGet s key = some e ∧ e.resetAt < now) →
       checkRateLimit s key limit windowMs now
         = (⟨true, none, 1⟩, rlSet s key ⟨1, now + windowMs⟩))
  ∧ (∀ e, rlGet s key = some e → now ≤ e.resetAt → e.count < limit →
       checkRateLimit s key limit windowMs now
         = (⟨true, none, e.count + 1⟩, rlSet s key ⟨e.count + 1, e.resetAt⟩))
  ∧ (∀ e, rlGet s key = some e → now ≤ e.resetAt → limit ≤ e.count →
       checkRateLimit s key limit windowMs now
           = (⟨false, some ((e.resetAt - now + 999) / 1000), e.count⟩, s)
         ∧ (now < e.resetAt → 1 ≤ (e.resetAt - now + 999) / 1000))
  ∧ ((checkRateLimit [] "k" 2 60000 0).1.allowed = true
      ∧ ((checkRateLimit (checkRateLimit [] "k" 2 60000 0).2 "k" 2 60000 0).1.allowed
          = true)
      ∧ (checkRateLimit
          (checkRateLimit (checkRateLimit [] "k" 2 60000 0).2 "k" 2 60000 0).2
          "k" 2 60000 0).1
        = ⟨false, some 60, 2⟩) := by
  refine ⟨?_, ?_, ?_, by decide⟩
  · rintro (h | ⟨e, he, hx⟩)
    · exact checkRateLimit_fresh s key limit windowMs now h
    · exact checkRateLimit_expired s key limit windowMs now e he hx
  · intro e he hw hc
    exact checkRateLimit_active_below s key limit windowMs now e he hw hc
  · intro e he hw hc
    refine ⟨checkRateLimit_at_limit s key limit windowMs now e he hw hc, ?_⟩
    intro hlt
    have h1000 : 1000 ≤ e.resetAt - now + 999 := by omega
    exact (Nat.le_div_iff_mul_le (by norm_num)).mpr (by omega)

/-- C9 witness: an in-window call below the limit increments the counter. -/
theorem C9_rate_governor_witness :
    checkRateLimit [("k", ⟨1, 100⟩)] "k" 2 60000 50
      = (⟨true, none, 2⟩, [("k", ⟨2, 100⟩)]) := by
  have h := (C9_rate_governor [("k", ⟨1, 100⟩)] "k" 2 60000 50).2.1 ⟨1, 100⟩
    (by decide) (by decide) (by decide)
  rw [h]
  decide

/-! ## C3 -/

/-- C3: creation yields version 1 and empty items; every successful update
persists a document whose version is exactly the stored version plus one, in
particular strictly larger. -/
theorem C3_version_monotonic :
    (∀ (body : CreateListRequest) (env : EnvCfg) (iso : String),
        (createList body env iso).version = 1 ∧ (createList body env iso).items = [])
  ∧ (∀ (slug : String) (inc : UpdateListRequest) (env : EnvCfg)
        (kv : Option GutList) (rl : RLStore) (now : Nat) (iso : String)
        (gid : Nat → String) (bl : GutList → Nat) (upd : GutList),
      (putStep slug inc env kv rl now iso gid bl).1 = .ok upd →
        ∃ ex, kv = some ex ∧ upd.version = ex.version + 1 ∧ ex.version < upd.version
          ∧ (putStep slug inc env kv rl now iso gid bl).2.1 = some upd) := by
  constructor
  · intro body env iso
    exact ⟨rfl, rfl⟩
  · intro slug inc env kv rl now iso gid bl upd hok
    obtain ⟨ex, hkv, _, _, _, _, hupd, hst⟩ :=
      putStep_ok_inv slug inc env kv rl now iso gid bl upd hok
    refine ⟨ex, hkv, ?_, ?_, hst⟩
    · rw [hupd, mergePhase_version]
    · rw [hupd, mergePhase_version]
      exact Int.lt_succ ex.version

/-- C3 witness: the concrete successful run bumps version 1 to 2. -/
theorem C3_version_monotonic_witness : c2upd.version = c2ex.version + 1 := by
  obtain ⟨ex, hex, h1, _, _⟩ := C3_version_monotonic.2 "s" c2inc envOff
    (some c2ex) [] 0 "t1" genZ zeroLen c2upd c2_put_eval
  have : ex = c2ex := by injection hex with h; exact h.symm
  rw [h1, this]

/-! ## C1 -/

theorem hasVersionConflict_iff (inc : UpdateListRequest) (ex : GutList) :
    hasVersionConflict inc ex = true ↔ ∃ v, inc.version = some v ∧ v ≠ ex.version := by
  unfold hasVersionConflict
  cases hv : inc.version with
  | none => simp
  | some v => simp [bne_iff_ne]

/-- C1: a PUT is answered with a version conflict carrying the stored document
iff it reached the conflict check with a version different from the stored one;
a rejected attempt leaves storage untouched, and an update without a version is
never rejected for conflict. -/
theorem C1_conflict_iff (slug : String) (inc : UpdateListRequest) (env : EnvCfg)
    (kv : Option GutList) (rl : RLStore) (now : Nat) (iso : String)
    (gid : Nat → String) (bl : GutList → Nat) :
    (∀ srv, (putStep slug inc env kv rl now iso gid bl).1 = .conflict srv →
        kv = some srv
      ∧ (∃ v, inc.version = some v ∧ v ≠ srv.version)
      ∧ (putStep slug inc env kv rl now iso gid bl).2.1 = kv)
  ∧ (∀ ex v, userGateOk inc = true →
      (rateStage slug inc env now rl).1.allowed = true →
      validateList inc env.maxItems = true → kv = some ex →
      inc.version = some v → v ≠ ex.version →
        (putStep slug inc env kv rl now iso gid bl).1 = .conflict ex
      ∧ (putStep slug inc env kv rl now iso gid bl).2.1 = kv)
  ∧ (inc.version = none →
      ∀ srv, (putStep slug inc env kv rl now iso gid bl).1 ≠ .conflict srv) := by
  refine ⟨?_, ?_, ?_⟩
  · intro srv h
    obtain ⟨hkv, hc, hst⟩ :=
      putStep_conflict_inv slug inc env kv rl now iso gid bl srv h
    exact ⟨hkv, (hasVersionConflict_iff inc srv).mp hc, hst⟩
  · intro ex v hg hr hv hkv hver hne
    subst hkv
    have hc : hasVersionConflict inc ex = true :=
      (hasVersionConflict_iff inc ex).mpr ⟨v, hver, hne⟩
    rw [putStep_run_conflict slug inc env ex rl now iso gid bl hg hr hv hc]
    exact ⟨rfl, rfl⟩
  · intro hnone srv h
    obtain ⟨_, hc, _⟩ :=
      putStep_conflict_inv slug inc env kv rl now iso gid bl srv h
    obtain ⟨v, hv, _⟩ := (hasVersionConflict_iff inc srv).mp hc
    rw [hnone] at hv
    exact Option.noConfusion hv

def c1inc : UpdateListRequest := ⟨none, none, none, some 0, none⟩

/-- C1 witness: a stale version 0 against stored version 1 is rejected with
the stored document and storage is unchanged. -/
theorem C1_conflict_iff_witness :
    (putStep "s" c1inc envOff (some c2ex) [] 0 "t1" genZ zeroLen).1 = .conflict c2ex
      ∧ (putStep "s" c1inc envOff (some c2ex) [] 0 "t1" genZ zeroLen).2.1
        = some c2ex :=
  (C1_conflict_iff "s" c1inc envOff (some c2ex) [] 0 "t1" genZ zeroLen).2.1
    c2ex 0 (by decide)
    (by rw [rateStage_disabled "s" c1inc envOff 0 [] rfl]) (by decide) rfl rfl
    (by decide)

/-! ## C7 -/

theorem clamp_le_bounds (v lo hi : ℚ) (h : lo ≤ hi) :
    lo ≤ clamp v lo hi ∧ clamp v lo hi ≤ hi := by
  unfold clamp
  constructor
  · exact le_max_left lo (min v hi)
  · exact max_le h (min_le_right v hi)

theorem clamp_numOr_eq_getD (v : Option ℚ) (lo hi : ℚ) (hmin : 0 < lo)
    (h : lo ≤ hi) : clamp (numOr v lo) lo hi = clamp (v.getD lo) lo hi := by
  cases v with
  | none => rfl
  | some x =>
    by_cases hx : x = 0
    · subst hx
      show clamp (if (0 : ℚ) = 0 then lo else 0) lo hi = clamp 0 lo hi
      rw [if_pos rfl]
      have h0hi : (0 : ℚ) ≤ hi := le_trans hmin.le h
      unfold clamp
      rw [min_eq_left h, max_self, min_eq_left h0hi, max_eq_left hmin.le]
    · show clamp (if x = 0 then lo else x) lo hi = clamp x lo hi
      rw [if_neg hx]

/-- C7: `normalizeUserScore` is total; for a scale with `0 < min ≤ max` a
missing factor defaults to `scale.min`, every factor is the clamp of the
supplied (or defaulted) value into `[min, max]` and lies in those bounds, the
returned score is exactly the product of the three clamped factors, the
client-supplied `score` field is ignored, and on scale `{1,5}` the input
`{g:10, u:0, t:3}` yields `{g:5, u:1, t:3, score:15}`. -/
theorem C7_normalizeUserScore_total (scale : Scale) (hmin : 0 < scale.min)
    (hmm : scale.min ≤ scale.max) :
    (∀ s : PartialUserScore,
        (normalizeUserScore s scale).g = clamp (s.g.getD scale.min) scale.min scale.max
      ∧ (normalizeUserScore s scale).u = clamp (s.u.getD scale.min) scale.min scale.max
      ∧ (normalizeUserScore s scale).t = clamp (s.t.getD scale.min) scale.min scale.max
      ∧ scale.min ≤ (normalizeUserScore s scale).g
      ∧ (normalizeUserScore s scale).g ≤ scale.max
      ∧ scale.min ≤ (normalizeUserScore s scale).u
      ∧ (normalizeUserScore s scale).u ≤ scale.max
      ∧ scale.min ≤ (normalizeUserScore s scale).t
      ∧ (normalizeUserScore s scale).t ≤ scale.max
      ∧ (normalizeUserScore s scale).score
          = (normalizeUserScore s scale).g * (normalizeUserScore s scale).u
            * (normalizeUserScore s scale).t
      ∧ ∀ sc, normalizeUserScore ⟨s.g, s.u, s.t, sc⟩ scale = normalizeUserScore s scale)
  ∧ normalizeUserScore ⟨some 10, some 0, some 3, none⟩ ⟨1, 5⟩ = ⟨5, 1, 3, 15⟩ := by
  constructor
  · intro s
    refine ⟨?_, ?_, ?_, ?_, ?_, ?_, ?_, ?_, ?_, ?_, ?_⟩
    · exact clamp_numOr_eq_getD s.g scale.min scale.max hmin hmm
    · exact clamp_numOr_eq_getD s.u scale.min scale.max hmin hmm
    · exact clamp_numOr_eq_getD s.t scale.min scale.max hmin hmm
    · exact (clamp_le_bounds (numOr s.g scale.min) scale.min scale.max hmm).1
    · exact (clamp_le_bounds (numOr s.g scale.min) scale.min scale.max hmm).2
    · exact (clamp_le_bounds (numOr s.u scale.min) scale.min scale.max hmm).1
    · exact (clamp_le_bounds (numOr s.u scale.min) scale.min scale.max hmm).2
    · exact (clamp_le_bounds (numOr s.t scale.min) scale.min scale.max hmm).1
    · exact (clamp_le_bounds (numOr s.t scale.min) scale.min scale.max hmm).2
    · rfl
    · intro sc
      rfl
  · norm_num [normalizeUserScore, numOr, clamp, calculateScore, min_def, max_def]

/-- C7 witness: the spec's worked example, through the theorem at scale
`{1,5}`. -/
theorem C7_normalizeUserScore_total_witness :
    normalizeUserScore ⟨some 10, some 0, some 3, none⟩ ⟨1, 5⟩ = ⟨5, 1, 3, 15⟩ :=
  (C7_normalizeUserScore_total ⟨1, 5⟩ (by norm_num) (by norm_num)).2

/-! ## C8 -/

/-- Modelled from the spec's words: rounding half away from zero (used only to
compare against the code's `Math.round`, which rounds half toward `+∞`). -/
def razRound (x : ℚ) : ℚ := if 0 ≤ x then (⌊x + 1/2⌋ : ℚ) else -(⌊-x + 1/2⌋ : ℚ)

/-- Modelled from the spec's words: round to one decimal, half away from zero
at the tenths digit. -/
def razRound1 (x : ℚ) : ℚ := razRound (x * 10) / 10

/-- Arithmetic mean of a list of rationals (spec-side definition used to state
what the code's fold computes). -/
def listMean (l : List ℚ) : ℚ := l.sum / l.length

theorem sumAcc_foldl (l : List UserScore) (init : SumAcc) :
    l.foldl (fun acc s => ⟨acc.g + s.g, acc.u + s.u, acc.t + s.t,
        acc.score + s.score⟩) init
      = ⟨init.g + (l.map (fun s => s.g)).sum, init.u + (l.map (fun s => s.u)).sum,
          init.t + (l.map (fun s => s.t)).sum,
          init.score + (l.map (fun s => s.score)).sum⟩ := by
  induction l generalizing init with
  | nil => simp
  | cons a as ih => simp [ih, add_assoc]

/-- C8 counterexample: on the map `{u1 ↦ {g: -1/4}}` the code rounds the mean
`-1/4` to `-1/5` (JS `Math.round` rounds half toward `+∞`), while rounding
half away from zero — what the claim prescribes — gives `-3/10`. -/
theorem C8_averageScores_counterexample :
    calculateAverageScore [("u1", ⟨-1/4, 0, 0, 0⟩)] = some ⟨-1/5, 0, 0, 0, 1⟩
      ∧ razRound1 (listMean [(-1/4 : ℚ)]) = -3/10
      ∧ ((-1/5 : ℚ) ≠ -3/10) := by
  refine ⟨?_, ?_, by norm_num⟩
  · norm_num [calculateAverageScore, jsRound1, jsRound]
  · norm_num [razRound1, razRound, listMean]

/-- C8 (amended): `calculateAverageScore` is absent exactly on the empty map;
on a non-empty map it returns the arithmetic means of `g`, `u`, `t` and
`score`, each rounded to one decimal by JS `Math.round` (half toward `+∞`,
which agrees with round-half-away-from-zero for all nonnegative means), and
`count` equal to the map size. -/
theorem C8_averageScores_amended :
    (∀ m : ScoresMap, calculateAverageScore m = none ↔ m = [])
  ∧ (∀ m : ScoresMap, m ≠ [] →
      calculateAverageScore m
        = some ⟨jsRound1 (listMean (m.map (fun p => p.2.g))),
                jsRound1 (listMean (m.map (fun p => p.2.u))),
                jsRound1 (listMean (m.map (fun p => p.2.t))),
                jsRound1 (listMean (m.map (fun p => p.2.score))),
                m.length⟩)
  ∧ (∀ x : ℚ, 0 ≤ x → jsRound1 x = razRound1 x) := by
  refine ⟨?_, ?_, ?_⟩
  · intro m
    unfold calculateAverageScore
    cases m with
    | nil => simp
    | cons p ps => simp
  · intro m hm
    unfold calculateAverageScore
    simp only []
    have hlen : (m.map (fun p => p.2)).length = m.length := List.length_map m _
    have hnz : ¬ (m.map (fun p => p.2)).length = 0 := by
      rw [hlen]
      simpa using hm
    rw [if_neg hnz, sumAcc_foldl]
    simp only [List.map_map, hlen, listMean, zero_add, List.length_map,
      Option.some.injEq, AverageScore.mk.injEq]
    refine ⟨?_, ?_, ?_, ?_, ?_⟩ <;> first | rfl | trivial
  · intro x hx
    unfold jsRound1 razRound1 razRound jsRound
    rw [if_pos (by positivity)]

/-- C8 witness: the amended statement evaluated on a one-entry map. -/
theorem C8_averageScores_amended_witness :
    calculateAverageScore [("u", ⟨1, 2, 3, 6⟩)] = some ⟨1, 2, 3, 6, 1⟩ := by
  have h := C8_averageScores_amended.2.1 [("u", ⟨1, 2, 3, 6⟩)] (by simp)
  rw [h]
  norm_num [listMean, jsRound1, jsRound]

/-! ## C6 -/

theorem validateList_items_le (inc : UpdateListRequest) (mi : Nat)
    (l : List IncomingItem) (hv : validateList inc mi = true)
    (hit : inc.items = some l) : l.length ≤ mi := by
  unfold validateList at hv
  rw [hit] at hv
  simp only [] at hv
  by_cases h : mi < l.length
  · rw [if_pos h] at hv
    exact Bool.noConfusion hv
  · exact Nat.not_lt.mp h

theorem items1Of_length (inItems : List IncomingItem) (ex : GutList)
    (scale : Scale) (env : EnvCfg) (gid : Nat → String)
    (hle : inItems.length ≤ env.maxItems) :
    (items1Of inItems ex scale env gid).length = inItems.length := by
  unfold items1Of
  by_cases hst : inItems.length ≠ ex.items.length
  · rw [if_pos hst]
    unfold structRebuild
    rw [length_mapWithIndex, List.length_take]
    omega
  · rw [if_neg hst]
    unfold normExisting
    rw [length_mapWithIndex]
    push_neg at hst
    omega

def c6itemA : GutItem := ⟨"a", "A", [], none, none⟩

def c6itemB : GutItem := ⟨"b", "B", [], none, none⟩

def c6ex : GutList := ⟨"T", [c6itemA, c6itemB], ⟨1, 5⟩, "t0", 1⟩

def c6inc : UpdateListRequest :=
  ⟨none, some [⟨some "b", none, none, none, none, some 1, some 1, some 2⟩,
    ⟨some "a", none, none, none, none, none, none, none⟩], none, none, some uidB⟩

def c6upd : GutList :=
  ⟨"T", [⟨"a", "A", [(uidB, ⟨1, 1, 2, 2⟩)], some ⟨1, 1, 2, 2, 1⟩, none⟩, c6itemB],
    ⟨1, 5⟩, "t1", 2⟩

theorem c6_merge_eval : mergePhase c6inc envOff c6ex "t1" genZ = c6upd := by
  simp +decide [mergePhase, c6inc, uidTruthy, effScale, c6ex, userMergeItems,
    items1Of, c6itemA, c6itemB, normExisting, structRebuild, mapWithIndex,
    applyUserItem, isUserItemUpdate, mergeUserScore, toPartialUS, normalizeItem,
    toPartial, normLabel, normNotes, jsOrStr, jsTrim, objSet, alSet, envOff,
    uidA, uidB, c6upd]
  refine ⟨?_, ?_⟩ <;>
    norm_num [normalizeUserScore, numOr, clamp, calculateScore, min_def, max_def,
      calculateAverageScore, jsRound1, jsRound, uidA, uidB]

theorem c6_put_eval :
    (putStep "s" c6inc envOff (some c6ex) [] 0 "t1" genZ zeroLen).1 = .ok c6upd := by
  rw [putStep_run_ok "s" c6inc envOff c6ex [] 0 "t1" genZ zeroLen
    (by decide)
    (by rw [rateStage_disabled "s" c6inc envOff 0 [] rfl])
    (by decide) (by decide) (by decide)]
  rw [c6_merge_eval]

/-- C6 counterexample: the claim says the (g,u,t) values a user supplies for
the item with id "b" are upserted into that item's scores map. In this
successful equal-count update the incoming items list `[b', a']` is reordered
against the stored `[a, b]`: the score supplied for id "b" lands on the item
with id "a" (pairing is positional), and the item with id "b" receives
nothing. -/
theorem C6_upsert_counterexample :
    (putStep "s" c6inc envOff (some c6ex) [] 0 "t1" genZ zeroLen).1 = .ok c6upd
      ∧ c6upd.items.map (fun it => it.id) = ["a", "b"]
      ∧ objGet ((c6upd.items.getD 1 default)).scores uidB = none
      ∧ objGet ((c6upd.items.getD 0 default)).scores uidB = some ⟨1, 1, 2, 2⟩ :=
  ⟨c6_put_eval, by decide, by decide, by decide⟩

/-- C6 (amended): in a successful update by user `B`, for every incoming item
with complete `(g,u,t)`, the normalized UserScore is upserted under `B` into
the item at the same index of the reconciled items array (by id only when the
update is structural, positional otherwise), and that item's average is
recomputed from its updated scores map. -/
theorem C6_upsert_amended (slug : String) (inc : UpdateListRequest) (env : EnvCfg)
    (ex upd : GutList) (rl : RLStore) (now : Nat) (iso : String)
    (gid : Nat → String) (bl : GutList → Nat) (B : String)
    (inItems : List IncomingItem) (j : Nat) (inIt : IncomingItem) (g u t : ℚ)
    (hok : (putStep slug inc env (some ex) rl now iso gid bl).1 = .ok upd)
    (hB : inc.userId = some B) (hitems : inc.items = some inItems)
    (hj : inItems[j]? = some inIt)
    (hg : inIt.g = some g) (hu : inIt.u = some u) (ht : inIt.t = some t) :
    ∃ r, upd.items[j]? = some r
      ∧ objGet r.scores B
          = some (normalizeUserScore ⟨some g, some u, some t, some (g * u * t)⟩
              (effScale inc env ex))
      ∧ r.avgScore = calculateAverageScore r.scores := by
  obtain ⟨ex', hkv, hgate, _hrate, hv, _hc, hupd, _hst⟩ :=
    putStep_ok_inv slug inc env (some ex) rl now iso gid bl upd hok
  have hex : ex = ex' := by injection hkv
  subst hex
  obtain ⟨huidT, _⟩ := uidTruthy_of_gate inc B hB hgate
  have hle : inItems.length ≤ env.maxItems := validateList_items_le inc _ inItems hv hitems
  have hjlt : j < inItems.length := (List.getElem?_eq_some.mp hj).1
  have hupditems : upd.items = userMergeItems B inItems ex (effScale inc env ex) env gid := by
    rw [hupd]
    exact mergePhase_items_user inc env ex iso gid B inItems huidT hitems
  have hlen1 : (items1Of inItems ex (effScale inc env ex) env gid).length
      = inItems.length := items1Of_length inItems ex _ env gid hle
  obtain ⟨item1, h1⟩ : ∃ item1,
      (items1Of inItems ex (effScale inc env ex) env gid)[j]? = some item1 := by
    cases h : (items1Of inItems ex (effScale inc env ex) env gid)[j]? with
    | none =>
      rw [List.getElem?_eq_none_iff, hlen1] at h
      omega
    | some x => exact ⟨x, rfl⟩
  refine ⟨applyUserItem B (effScale inc env ex) inIt item1, ?_, ?_⟩
  · rw [hupditems, userMergeItems_getElem?, h1, hj]
    rfl
  · exact applyUserItem_complete B (effScale inc env ex) inIt item1 g u t hg hu ht

/-- C6 witness: in the counterexample run, the score supplied at index 0 is
upserted (normalized) into the item at index 0, with its average recomputed. -/
theorem C6_upsert_amended_witness :
    objGet (⟨"a", "A", [(uidB, ⟨1, 1, 2, 2⟩)], some ⟨1, 1, 2, 2, 1⟩, none⟩ : GutItem).scores uidB
      = some (normalizeUserScore ⟨some 1, some 1, some 2, some (1 * 1 * 2)⟩
          (effScale c6inc envOff c6ex)) := by
  obtain ⟨r, hr, hscore, _⟩ := C6_upsert_amended "s" c6inc envOff c6ex c6upd []
    0 "t1" genZ zeroLen uidB _ 0 _ 1 1 2 c6_put_eval rfl rfl rfl rfl rfl rfl
  have hrval : r = ⟨"a", "A", [(uidB, ⟨1, 1, 2, 2⟩)], some ⟨1, 1, 2, 2, 1⟩, none⟩ := by
    have : c6upd.items[0]? = some r := hr
    simpa [c6upd] using this.symm
  rw [← hrval]
  exact hscore

/-! ## C5 -/

theorem applyUserItem_label (uid : String) (scale : Scale) (inIt : IncomingItem)
    (item : GutItem) (l : String) (hl : inIt.label = some l)
    (hil : item.label = l) : (applyUserItem uid scale inIt item).label = l := by
  unfold applyUserItem
  by_cases hi : isUserItemUpdate inIt
  · simp only [hi, if_true, hl]
    cases inIt.notes <;> cases inIt.g <;> cases inIt.u <;> cases inIt.t <;>
      simp [mergeUserScore]
  · simp [hi, hil]

theorem applyUserItem_notes (uid : String) (scale : Scale) (inIt : IncomingItem)
    (item : GutItem) (n : String) (hn : inIt.notes = some n)
    (hin : item.notes = some n) : (applyUserItem uid scale inIt item).notes = some n := by
  unfold applyUserItem
  by_cases hi : isUserItemUpdate inIt
  · simp only [hi, if_true, hn]
    cases inIt.label <;> cases inIt.g <;> cases inIt.u <;> cases inIt.t <;>
      simp [mergeUserScore]
  · simp [hi, hin]

/-- C5 (amended): in a successful structural update (incoming count differs
from stored count) by user `B`, with nonempty ids on both sides, the result has
exactly the incoming items in order: items whose id matches a stored item keep
that item's scores for every user other than `B` and adopt the supplied label
(when non-empty) and notes; unmatched incoming items are added under their own
id with their client-supplied scores map — empty only when none is supplied;
stored items whose id does not occur in the incoming list are dropped. -/
theorem C5_structural_amended (slug : String) (inc : UpdateListRequest)
    (env : EnvCfg) (ex upd : GutList) (rl : RLStore) (now : Nat) (iso : String)
    (gid : Nat → String) (bl : GutList → Nat) (B : String)
    (inItems : List IncomingItem)
    (hok : (putStep slug inc env (some ex) rl now iso gid bl).1 = .ok upd)
    (hB : inc.userId = some B) (hitems : inc.items = some inItems)
    (hst : inItems.length ≠ ex.items.length)
    (hexids : ∀ it ∈ ex.items, it.id ≠ "")
    (hinids : ∀ it ∈ inItems, ∃ s, it.id = some s ∧ s ≠ "") :
    upd.items.length = inItems.length
  ∧ (∀ (j : Nat) (inIt : IncomingItem), inItems[j]? = some inIt →
      ∃ r : GutItem, upd.items[j]? = some r
        ∧ (∀ e, ex.items.find? (fun e2 => inIt.id == some e2.id) = some e →
              r.id = e.id
            ∧ (∀ u2, u2 ≠ B → objGet r.scores u2 = objGet e.scores u2)
            ∧ (∀ l, inIt.label = some l → l ≠ "" → r.label = l)
            ∧ (∀ n, inIt.notes = some n → r.notes = some n))
        ∧ (ex.items.find? (fun e2 => inIt.id == some e2.id) = none →
              (∀ s, inIt.id = some s → r.id = s)
            ∧ (∀ u2, u2 ≠ B →
                objGet r.scores u2 = objGet (inIt.scores.getD []) u2)))
  ∧ (∀ e ∈ ex.items, (∀ inIt ∈ inItems, inIt.id ≠ some e.id) →
      ∀ r ∈ upd.items, r.id ≠ e.id) := by
  obtain ⟨ex', hkv, hgate, _hrate, hv, _hc, hupd, _hstore⟩ :=
    putStep_ok_inv slug inc env (some ex) rl now iso gid bl upd hok
  have hex : ex = ex' := by injection hkv
  subst hex
  obtain ⟨huidT, _⟩ := uidTruthy_of_gate inc B hB hgate
  have hle : inItems.length ≤ env.maxItems := validateList_items_le inc _ inItems hv hitems
  have hupditems : upd.items
      = userMergeItems B inItems ex (effScale inc env ex) env gid := by
    rw [hupd]
    exact mergePhase_items_user inc env ex iso gid B inItems huidT hitems
  have hitems1 : items1Of inItems ex (effScale inc env ex) env gid
      = structRebuild inItems ex (effScale inc env ex) env gid := by
    unfold items1Of
    rw [if_pos hst]
  refine ⟨?_, ?_, ?_⟩
  · rw [hupditems]
    unfold userMergeItems
    rw [length_mapWithIndex, hitems1]
    unfold structRebuild
    rw [length_mapWithIndex, List.length_take]
    omega
  · intro j inIt hj
    have hjlt : j < inItems.length := (List.getElem?_eq_some.mp hj).1
    have htake : (inItems.take env.maxItems)[j]? = some inIt := by
      rw [List.getElem?_take, if_pos (by omega)]
      exact hj
    cases hf : ex.items.find? (fun e2 => inIt.id == some e2.id) with
    | some e =>
      have hmem : e ∈ ex.items := List.mem_of_find?_eq_some hf
      have hbase :
          (structRebuild inItems ex (effScale inc env ex) env gid)[j]?
            = some { normalizeItem (gid j) (toPartial e) (effScale inc env ex)
                env.maxItems with
                label := jsOrStr inIt.label e.label,
                notes := match inIt.notes with
                  | some n => some n
                  | none => e.notes } := by
        rw [structRebuild_getElem?, htake]
        simp only [Option.map_some', hf]
      refine ⟨applyUserItem B (effScale inc env ex) inIt
        { normalizeItem (gid j) (toPartial e) (effScale inc env ex) env.maxItems with
          label := jsOrStr inIt.label e.label,
          notes := match inIt.notes with
            | some n => some n
            | none => e.notes }, ?_, ?_, ?_⟩
      · rw [hupditems, userMergeItems_getElem?, hitems1, hbase, hj]
        rfl
      · intro e3 hf3
        injection hf3 with he3
        subst he3
        refine ⟨?_, ?_, ?_, ?_⟩
        · rw [applyUserItem_id]
          show (normalizeItem (gid j) (toPartial e) (effScale inc env ex)
            env.maxItems).id = e.id
          exact normalizeItem_toPartial_id _ _ _ _ (hexids e hmem)
        · intro u2 hu2
          rw [applyUserItem_scores_other B _ inIt _ u2 hu2]
          show objGet (normalizeItem (gid j) (toPartial e) (effScale inc env ex)
              env.maxItems).scores u2
            = objGet e.scores u2
          rw [normalizeItem_toPartial_scores]
        · intro l hl hlne
          refine applyUserItem_label B _ inIt _ l hl ?_
          show jsOrStr inIt.label e.label = l
          rw [hl]
          show (if l = "" then e.label else l) = l
          rw [if_neg hlne]
        · intro n hn
          refine applyUserItem_notes B _ inIt _ n hn ?_
          show (match inIt.notes with
            | some n => some n
            | none => e.notes) = some n
          rw [hn]
      · intro hf3
        exact Option.noConfusion hf3
    | none =>
      have hbase :
          (structRebuild inItems ex (effScale inc env ex) env gid)[j]?
            = some (normalizeItem (gid j) inIt (effScale inc env ex) env.maxItems) := by
        rw [structRebuild_getElem?, htake]
        simp only [Option.map_some', hf]
      refine ⟨applyUserItem B (effScale inc env ex) inIt
        (normalizeItem (gid j) inIt (effScale inc env ex) env.maxItems), ?_, ?_, ?_⟩
      · rw [hupditems, userMergeItems_getElem?, hitems1, hbase, hj]
        rfl
      · intro e3 hf3
        exact Option.noConfusion hf3
      · intro _
        refine ⟨?_, ?_⟩
        · intro s hs
          rw [applyUserItem_id]
          unfold normalizeItem
          rw [hs]
          obtain ⟨s2, hs2, hs2ne⟩ := hinids inIt (List.mem_iff_getElem?.mpr ⟨j, hj⟩)
          rw [hs] at hs2
          injection hs2 with hss
          subst hss
          simp [hs2ne]
        · intro u2 hu2
          rw [applyUserItem_scores_other B _ inIt _ u2 hu2]
          rfl
  · intro e he hnoin r hr
    rw [hupditems] at hr
    unfold userMergeItems at hr
    obtain ⟨i, item1, h1, hre⟩ := mem_mapWithIndex.mp hr
    have hrid : r.id = item1.id := by
      cases hini : inItems[i]? with
      | none => rw [hini] at hre; simp only [] at hre; rw [hre]
      | some inIt =>
        rw [hini] at hre
        simp only [] at hre
        rw [hre]
        exact applyUserItem_id B _ inIt item1
    rw [hitems1, structRebuild_getElem?] at h1
    cases hin : (inItems.take env.maxItems)[i]? with
    | none => rw [hin] at h1; exact Option.noConfusion h1
    | some inIt =>
      rw [hin] at h1
      simp only [Option.map_some', Option.some.injEq] at h1
      have hinmem : inIt ∈ inItems :=
        List.take_subset env.maxItems inItems (List.mem_iff_getElem?.mpr ⟨i, hin⟩)
      have hne2 : inIt.id ≠ some e.id := hnoin inIt hinmem
      cases hf : ex.items.find? (fun e2 => inIt.id == some e2.id) with
      | some e2 =>
        rw [hf] at h1
        have he2 : e2 ∈ ex.items := List.mem_of_find?_eq_some hf
        have hfid : inIt.id = some e2.id := by
          have := List.find?_some hf
          simpa using this
        have hi1 : item1.id = e2.id := by
          rw [← h1]
          show (normalizeItem (gid i) (toPartial e2) (effScale inc env ex)
            env.maxItems).id = e2.id
          exact normalizeItem_toPartial_id _ _ _ _ (hexids e2 he2)
        intro hcontra
        apply hne2
        rw [hfid, ← hi1, ← hrid, hcontra]
      | none =>
        rw [hf] at h1
        obtain ⟨s, hs, hsne⟩ := hinids inIt hinmem
        have hi1 : item1.id = s := by
          rw [← h1]
          unfold normalizeItem
          rw [hs]
          simp [hsne]
        intro hcontra
        apply hne2
        rw [hs, Option.some.injEq, ← hi1, ← hrid, hcontra]

def bogus : UserScore := ⟨9, 9, 9, 7⟩

def c5ex : GutList := ⟨"T", [c6itemA], ⟨1, 5⟩, "t0", 1⟩

def c5newIn : IncomingItem :=
  ⟨some "n", some "N", none, some [(uidA, bogus)], none, none, none, none⟩

def c5inc : UpdateListRequest :=
  ⟨none, some [⟨some "a", none, none, none, none, none, none, none⟩, c5newIn],
    none, none, some uidB⟩

def c5upd : GutList :=
  ⟨"T", [c6itemA, ⟨"n", "N", [(uidA, bogus)], none, none⟩], ⟨1, 5⟩, "t1", 2⟩

theorem c5_merge_eval : mergePhase c5inc envOff c5ex "t1" genZ = c5upd := by
  simp +decide [mergePhase, c5inc, uidTruthy, effScale, c5ex, userMergeItems,
    items1Of, c6itemA, c5newIn, normExisting, structRebuild, mapWithIndex,
    applyUserItem, isUserItemUpdate, mergeUserScore, toPartialUS, normalizeItem,
    toPartial, normLabel, normNotes, jsOrStr, jsTrim, objSet, alSet, envOff,
    uidA, uidB, c5upd]

theorem c5_put_eval :
    (putStep "s" c5inc envOff (some c5ex) [] 0 "t1" genZ zeroLen).1 = .ok c5upd := by
  rw [putStep_run_ok "s" c5inc envOff c5ex [] 0 "t1" genZ zeroLen
    (by decide)
    (by rw [rateStage_disabled "s" c5inc envOff 0 [] rfl])
    (by decide) (by decide) (by decide)]
  rw [c5_merge_eval]

/-- C5 counterexample: the claim says items only in the incoming set are
"added fresh with empty scores". In this successful structural update by
`uidB`, the incoming new item with id "n" carries a client-supplied scores map
for `uidA`, and that map is persisted verbatim — not empty. -/
theorem C5_structural_counterexample :
    (putStep "s" c5inc envOff (some c5ex) [] 0 "t1" genZ zeroLen).1 = .ok c5upd
      ∧ c5ex.items.map (fun it => it.id) = ["a"]
      ∧ (c5upd.items.getD 1 default).id = "n"
      ∧ (c5upd.items.getD 1 default).scores ≠ []
      ∧ objGet (c5upd.items.getD 1 default).scores uidA = some bogus :=
  ⟨c5_put_eval, by decide, by decide, by decide, by decide⟩

/-- C5 witness: the amended statement on the counterexample run — the result
has exactly the incoming count of items. -/
theorem C5_structural_amended_witness : c5upd.items.length = 2 := by
  have h := (C5_structural_amended "s" c5inc envOff c5ex c5upd [] 0 "t1" genZ
    zeroLen uidB [⟨some "a", none, none, none, none, none, none, none⟩, c5newIn]
    c5_put_eval rfl rfl (by decide) (by decide)
    (by
      intro it hit
      cases hit with
      | head => exact ⟨"a", rfl, by decide⟩
      | tail _ h2 =>
        cases h2 with
        | head => exact ⟨"n", rfl, by decide⟩
        | tail _ h3 => cases h3)).1
  simpa using h

/-! ## C4 -/

def c4inc : UpdateListRequest :=
  ⟨none, some [⟨some "x", some "L", none, some [(uidA, bogus)], none, none,
    none, none⟩], none, none, none⟩

def c4upd : GutList :=
  ⟨"T", [⟨"x", "L", [(uidA, bogus)], none, none⟩], ⟨1, 5⟩, "t1", 2⟩

theorem c4_merge_eval : mergePhase c4inc envOff c5ex "t1" genZ = c4upd := by
  simp +decide [mergePhase, c4inc, uidTruthy, effScale, c5ex, mapWithIndex,
    normalizeItem, normLabel, normNotes, jsOrStr, jsTrim, envOff, c4upd,
    c6itemA]

theorem c4_put_eval :
    (putStep "s" c4inc envOff (some c5ex) [] 0 "t1" genZ zeroLen).1 = .ok c4upd := by
  rw [putStep_run_ok "s" c4inc envOff c5ex [] 0 "t1" genZ zeroLen
    (by decide)
    (by rw [rateStage_disabled "s" c4inc envOff 0 [] rfl])
    (by decide) (by decide) (by decide)]
  rw [c4_merge_eval]

/-- C4 counterexample: a successful full item-replacement update with no user
identifier persists the client-supplied UserScore `{g:9,u:9,t:9,score:7}`
verbatim — its score differs from `g*u*t` and its factors exceed the scale
maximum 5, so the claimed invariant on persisted state does not hold on this
write path. -/
theorem C4_invariant_counterexample :
    (putStep "s" c4inc envOff (some c5ex) [] 0 "t1" genZ zeroLen).1 = .ok c4upd
      ∧ c4inc.userId = none
      ∧ objGet ((c4upd.items.getD 0 default)).scores uidA = some bogus
      ∧ bogus.score ≠ bogus.g * bogus.u * bogus.t
      ∧ c4upd.scale.max < bogus.g :=
  ⟨c4_put_eval, rfl, by decide, by norm_num [bogus], by norm_num [bogus, c4upd]⟩

/-- C4 (amended): the `score == g*u*t` invariant (with clamped factors in
range) holds for every entry written through the user-score merge path
(`mergeUserScore` always stores a `normalizeUserScore` result and recomputes
the average), while the full item-replacement path without a user identifier
persists each incoming item's client-supplied scores map verbatim. -/
theorem C4_invariant_amended :
    (∀ (item : GutItem) (uid : String) (us : UserScore) (scale : Scale),
        objGet (mergeUserScore item uid us scale).scores uid
          = some (normalizeUserScore (toPartialUS us) scale)
      ∧ (normalizeUserScore (toPartialUS us) scale).score
          = (normalizeUserScore (toPartialUS us) scale).g
            * (normalizeUserScore (toPartialUS us) scale).u
            * (normalizeUserScore (toPartialUS us) scale).t
      ∧ (scale.min ≤ scale.max →
            scale.min ≤ (normalizeUserScore (toPartialUS us) scale).g
          ∧ (normalizeUserScore (toPartialUS us) scale).g ≤ scale.max
          ∧ scale.min ≤ (normalizeUserScore (toPartialUS us) scale).u
          ∧ (normalizeUserScore (toPartialUS us) scale).u ≤ scale.max
          ∧ scale.min ≤ (normalizeUserScore (toPartialUS us) scale).t
          ∧ (normalizeUserScore (toPartialUS us) scale).t ≤ scale.max)
      ∧ (mergeUserScore item uid us scale).avgScore
          = calculateAverageScore (mergeUserScore item uid us scale).scores)
  ∧ (∀ (slug : String) (inc : UpdateListRequest) (env : EnvCfg)
        (ex upd : GutList) (rl : RLStore) (now : Nat) (iso : String)
        (gid : Nat → String) (bl : GutList → Nat)
        (inItems : List IncomingItem) (j : Nat) (inIt : IncomingItem),
      (putStep slug inc env (some ex) rl now iso gid bl).1 = .ok upd →
      uidTruthy inc = none → inc.items = some inItems →
      inItems[j]? = some inIt →
        ∃ r : GutItem, upd.items[j]? = some r
          ∧ r.scores = inIt.scores.getD []) := by
  constructor
  · intro item uid us scale
    refine ⟨?_, rfl, ?_, rfl⟩
    · show objGet (objSet item.scores uid (normalizeUserScore (toPartialUS us) scale)) uid
        = some (normalizeUserScore (toPartialUS us) scale)
      exact alGet_alSet_self item.scores uid _
    · intro hmm
      refine ⟨?_, ?_, ?_, ?_, ?_, ?_⟩
      · exact (clamp_le_bounds _ scale.min scale.max hmm).1
      · exact (clamp_le_bounds _ scale.min scale.max hmm).2
      · exact (clamp_le_bounds _ scale.min scale.max hmm).1
      · exact (clamp_le_bounds _ scale.min scale.max hmm).2
      · exact (clamp_le_bounds _ scale.min scale.max hmm).1
      · exact (clamp_le_bounds _ scale.min scale.max hmm).2
  · intro slug inc env ex upd rl now iso gid bl inItems j inIt hok hu hit hj
    obtain ⟨ex', hkv, _hg, _hr, hv, _hc, hupd, _⟩ :=
      putStep_ok_inv slug inc env (some ex) rl now iso gid bl upd hok
    have hex : ex = ex' := by injection hkv
    subst hex
    have hle : inItems.length ≤ env.maxItems :=
      validateList_items_le inc _ inItems hv hit
    have hjlt : j < inItems.length := (List.getElem?_eq_some.mp hj).1
    have hupditems : upd.items
        = mapWithIndex (fun j it =>
            normalizeItem (gid j) it (effScale inc env ex) env.maxItems)
          (inItems.take env.maxItems) := by
      rw [hupd]
      exact mergePhase_items_replace inc env ex iso gid inItems hu hit
    refine ⟨normalizeItem (gid j) inIt (effScale inc env ex) env.maxItems, ?_, rfl⟩
    rw [hupditems, getElem?_mapWithIndex, List.getElem?_take, if_pos (by omega), hj]
    rfl

/-- C4 witness: one user-path write — a client-supplied score of 99 for
factors (2,3,4) is replaced by the recomputed product 24. -/
theorem C4_invariant_amended_witness :
    objGet (mergeUserScore ⟨"i", "L", [], none, none⟩ "u" ⟨2, 3, 4, 99⟩
      ⟨1, 5⟩).scores "u" = some ⟨2, 3, 4, 24⟩ := by
  have h := (C4_invariant_amended.1 ⟨"i", "L", [], none, none⟩ "u" ⟨2, 3, 4, 99⟩
    ⟨1, 5⟩).1
  rw [h]
  norm_num [normalizeUserScore, toPartialUS, numOr, clamp, calculateScore,
    min_def, max_def]

/-! ## C10 -/

/-- C10: with rate limiting enabled and a valid userId attached, a PUT that
fails with InvalidRequest, NotFound, VersionConflict or TooLarge has already
charged one unit of each applicable quota window — per-user minute, per-user
hour and per-list minute — and neither restores the rate store nor touches the
stored document. -/
theorem C10_rate_charge_on_failure (slug : String) (inc : UpdateListRequest)
    (env : EnvCfg) (kv : Option GutList) (rl : RLStore) (now : Nat)
    (iso : String) (gid : Nat → String) (bl : GutList → Nat) (uid : String)
    (hB : inc.userId = some uid)
    (hen : env.enableRateLimiting = true)
    (hfail : (putStep slug inc env kv rl now iso gid bl).1 = .invalidRequest
      ∨ (putStep slug inc env kv rl now iso gid bl).1 = .notFound
      ∨ (∃ srv, (putStep slug inc env kv rl now iso gid bl).1 = .conflict srv)
      ∨ (putStep slug inc env kv rl now iso gid bl).1 = .tooLarge) :
    consumedOne rl (putStep slug inc env kv rl now iso gid bl).2.2
        (userMinKey uid) 60000 now
      ∧ consumedOne rl (putStep slug inc env kv rl now iso gid bl).2.2
        (userHourKey uid) 3600000 now
      ∧ consumedOne rl (putStep slug inc env kv rl now iso gid bl).2.2
        (listMinKey slug) 60000 now
      ∧ (putStep slug inc env kv rl now iso gid bl).2.1 = kv := by
  obtain ⟨hg, hr, hkv, hrl⟩ :=
    putStep_fail_frame slug inc env kv rl now iso gid bl hfail
  obtain ⟨huidT, _⟩ := uidTruthy_of_gate inc uid hB hg
  obtain ⟨h1, h2, h3⟩ :=
    rateStage_enabled_consumes slug inc env now rl uid hen huidT hr
  rw [hrl]
  exact ⟨h1, h2, h3, hkv⟩

def c10inc : UpdateListRequest := ⟨none, none, none, none, some uidB⟩

/-- C10 witness: with rate limiting on and an absent stored list, the
NotFound failure still leaves the per-user minute window charged to 1. -/
theorem C10_rate_charge_on_failure_witness :
    consumedOne [] (putStep "s" c10inc envOn none [] 0 "t1" genZ zeroLen).2.2
      (userMinKey uidB) 60000 0 :=
  (C10_rate_charge_on_failure "s" c10inc envOn none [] 0 "t1" genZ zeroLen uidB
    rfl rfl (Or.inr (Or.inl (by decide)))).1

end GM
